import Mathlib

/-!
Verification development for the duck-game sandboxed command-execution engine.

The definitions below are a shallow embedding of:
- the State Store (`src/src/store/gameStore.ts`, zustand store `useGameStore`),
- the Capability Surface (`src/src/sandbox/SandboxAPI.ts`, class `SandboxAPI`),
- the Restricted Executor (`executeSandboxedCode`, duckworld-2d sandbox executor),
- the History Stack (`useHistoryStore`, duckworld-2d history store).

Modelling conventions:
- JS numbers are modelled as `Int` (all operations the engine performs on them
  are additions, subtractions, multiplications, comparisons, `Math.max`/`Math.min`;
  the one division in the collision test is embedded by exact cross-multiplication,
  see `checkCollision`).
- JS objects are modelled by value; the zustand store never mutates objects in
  place (every action builds fresh objects), so the source's shallow copies
  (`{ ...entity }`) coincide with value copies.
- A `Change`'s `forward`/`reverse` closures are modelled as functions
  `GameState → GameState`: each closure only reads the values it captured and
  calls store actions.
- `Date.now()` is modelled as a `Nat` parameter (`now`) fixed for one script
  execution; uniqueness of generated entity ids inside one execution comes from
  `entityCounter` exactly as in the source.
- Scripts are modelled as lists of capability calls (`Cmd`), one constructor per
  mutating/communication method of the Capability Surface, plus `throwErr`
  modelling a script statement that throws.  A data-dependent script, run from a
  fixed initial state, performs some definite sequence of capability calls, so
  universally quantifying over `List Cmd` covers all script behaviours that the
  claims are about.
-/

namespace DuckGame

/-- `PlayerAppearance` from `src/src/types/game.ts`. -/
structure PlayerAppearance where
  shape : String
  color : String
  size : Int
deriving Repr, DecidableEq

/-- `PlayerState` from `src/src/types/game.ts`. -/
structure PlayerState where
  x : Int
  y : Int
  health : Int
  maxHealth : Int
  points : Int
  appearance : PlayerAppearance
deriving Repr, DecidableEq

/-- `WorldState` from `src/src/types/game.ts`. -/
structure WorldState where
  width : Int
  height : Int
  terrainColor : String
  skyColor : String
deriving Repr, DecidableEq

/-- `BehaviorConfig` from `src/src/types/game.ts` (`speed?`/`range?` optional). -/
structure BehaviorConfig where
  type : String
  speed : Option Int := none
  range : Option Int := none
deriving Repr, DecidableEq

/-- `EntityConfig` from `src/src/types/game.ts`. -/
structure EntityConfig where
  id : String
  name : String
  x : Int
  y : Int
  width : Int
  height : Int
  shape : String
  color : String
  solid : Bool
  behaviors : List BehaviorConfig
deriving Repr, DecidableEq

/-- `ShapePrimitive` from `src/src/types/game.ts`. -/
inductive ShapePrimitive where
  | circle (x y radius : Int) (color : String)
  | ellipse (x y rx ry : Int) (color : String)
  | rect (x y width height : Int) (color : String)
  | triangle (x y width height : Int) (color : String)
deriving Repr, DecidableEq

/-- A JS `Map` keyed by strings, modelled as an insertion-ordered association
list (`Map.prototype.set` updates an existing key in place, otherwise appends). -/
def mapSet {α : Type} : List (String × α) → String → α → List (String × α)
  | [], k, v => [(k, v)]
  | (k', v') :: rest, k, v =>
    if k' == k then (k, v) :: rest else (k', v') :: mapSet rest k v

/-- `Map.prototype.get`. -/
def mapGet {α : Type} : List (String × α) → String → Option α
  | [], _ => none
  | (k', v') :: rest, k => if k' == k then some v' else mapGet rest k

/-- The mutable state held by the zustand store `useGameStore`
(`src/src/store/gameStore.ts`): player, world, entities, customShapes. -/
structure GameState where
  player : PlayerState
  world : WorldState
  entities : List EntityConfig
  customShapes : List (String × List ShapePrimitive)
deriving Repr, DecidableEq

/-- `Partial<EntityConfig>`: the partial field-update map accepted by
`updateEntity`; `none` models an absent key. -/
structure EntityUpdates where
  id : Option String := none
  name : Option String := none
  x : Option Int := none
  y : Option Int := none
  width : Option Int := none
  height : Option Int := none
  shape : Option String := none
  color : Option String := none
  solid : Option Bool := none
  behaviors : Option (List BehaviorConfig) := none
deriving Repr, DecidableEq

/-- The JS spread `{ ...e, ...updates }` for an entity. -/
def EntityConfig.applyUpdates (e : EntityConfig) (u : EntityUpdates) : EntityConfig :=
  { id := u.id.getD e.id
    name := u.name.getD e.name
    x := u.x.getD e.x
    y := u.y.getD e.y
    width := u.width.getD e.width
    height := u.height.getD e.height
    shape := u.shape.getD e.shape
    color := u.color.getD e.color
    solid := u.solid.getD e.solid
    behaviors := u.behaviors.getD e.behaviors }

/-- A full `EntityConfig` used as an update object (the source passes the
snapshot `previousState` — a complete entity — to `updateEntity`). -/
def EntityConfig.toUpdates (e : EntityConfig) : EntityUpdates :=
  { id := some e.id
    name := some e.name
    x := some e.x
    y := some e.y
    width := some e.width
    height := some e.height
    shape := some e.shape
    color := some e.color
    solid := some e.solid
    behaviors := some e.behaviors }

/-- `Partial<PlayerAppearance>`. -/
structure AppearanceUpdates where
  shape : Option String := none
  color : Option String := none
  size : Option Int := none
deriving Repr, DecidableEq

/-- The JS spread `{ ...appearance, ...updates }`. -/
def PlayerAppearance.applyUpdates (a : PlayerAppearance) (u : AppearanceUpdates) :
    PlayerAppearance :=
  { shape := u.shape.getD a.shape
    color := u.color.getD a.color
    size := u.size.getD a.size }

/-- A full `PlayerAppearance` used as an update object. -/
def PlayerAppearance.toUpdates (a : PlayerAppearance) : AppearanceUpdates :=
  { shape := some a.shape, color := some a.color, size := some a.size }

namespace GameStore

/-- `checkCollision` from `src/src/store/gameStore.ts`.  The source's ellipse
test is `((px-cx)/rx)^2 + ((py-cy)/ry)^2 < 1` with `cx = x + width/2`,
`rx = width/2 + playerRadius`; multiplying through by `(2 rx)^2 (2 ry)^2 ≥ 0`
gives the equivalent integer form used here (when `rx` or `ry` is 0 the source's
float comparison is false against Infinity/NaN, and this form is false too). -/
def checkCollision (px py : Int) (entity : EntityConfig)
    (playerRadius : Int := 15) : Bool :=
  if !entity.solid then false
  else if entity.shape == "lake" then
    let dx2 := 2 * px - 2 * entity.x - entity.width
    let dy2 := 2 * py - 2 * entity.y - entity.height
    let rx2 := entity.width + 2 * playerRadius
    let ry2 := entity.height + 2 * playerRadius
    decide (dx2 * dx2 * ry2 * ry2 + dy2 * dy2 * rx2 * rx2 < rx2 * rx2 * ry2 * ry2)
  else
    let left := entity.x - playerRadius
    let right := entity.x + entity.width + playerRadius
    let top := entity.y - playerRadius
    let bottom := entity.y + entity.height + playerRadius
    decide (px > left) && decide (px < right) && decide (py > top) && decide (py < bottom)

/-- `movePlayer` store action: clamp the destination to the world margins, then
walk the entity list resolving collisions exactly as the source's `for` loop. -/
def movePlayer (dx dy : Int) (s : GameState) : GameState :=
  let startX := max 20 (min (s.world.width - 20) (s.player.x + dx))
  let startY := max 20 (min (s.world.height - 20) (s.player.y + dy))
  let p := s.entities.foldl
    (fun (acc : Int × Int) entity =>
      let newX := acc.1
      let newY := acc.2
      if checkCollision newX newY entity then
        if !checkCollision newX s.player.y entity then (newX, s.player.y)
        else if !checkCollision s.player.x newY entity then (s.player.x, newY)
        else (s.player.x, s.player.y)
      else acc)
    (startX, startY)
  { s with player := { s.player with x := p.1, y := p.2 } }

/-- `teleportPlayer` store action. -/
def teleportPlayer (x y : Int) (s : GameState) : GameState :=
  { s with player := { s.player with x := x, y := y } }

/-- `setPlayerAppearance` store action. -/
def setPlayerAppearance (appearance : AppearanceUpdates) (s : GameState) : GameState :=
  { s with player :=
      { s.player with appearance := s.player.appearance.applyUpdates appearance } }

/-- `modifyHealth` store action: clamps to `[0, maxHealth]`. -/
def modifyHealth (amount : Int) (s : GameState) : GameState :=
  { s with player :=
      { s.player with
        health := max 0 (min s.player.maxHealth (s.player.health + amount)) } }

/-- `modifyPoints` store action: clamps below at 0. -/
def modifyPoints (amount : Int) (s : GameState) : GameState :=
  { s with player := { s.player with points := max 0 (s.player.points + amount) } }

/-- `addEntity` store action: appends to the entity array. -/
def addEntity (entity : EntityConfig) (s : GameState) : GameState :=
  { s with entities := s.entities ++ [entity] }

/-- `updateEntity` store action: `entities.map(e => e.id === id ? { ...e, ...updates } : e)`. -/
def updateEntity (id : String) (updates : EntityUpdates) (s : GameState) : GameState :=
  { s with entities :=
      s.entities.map (fun e => if e.id == id then e.applyUpdates updates else e) }

/-- `removeEntity` store action: `entities.filter(e => e.id !== id)`. -/
def removeEntity (id : String) (s : GameState) : GameState :=
  { s with entities := s.entities.filter (fun e => e.id != id) }

/-- `getEntity` store read: `entities.find(e => e.id === id)`. -/
def getEntity (id : String) (s : GameState) : Option EntityConfig :=
  s.entities.find? (fun e => e.id == id)

/-- `setTerrainColor` store action. -/
def setTerrainColor (color : String) (s : GameState) : GameState :=
  { s with world := { s.world with terrainColor := color } }

/-- `setSkyColor` store action. -/
def setSkyColor (color : String) (s : GameState) : GameState :=
  { s with world := { s.world with skyColor := color } }

/-- `addBehavior` store action: appends to the target entity's behavior list. -/
def addBehavior (entityId : String) (behavior : BehaviorConfig) (s : GameState) : GameState :=
  { s with entities :=
      s.entities.map (fun e =>
        if e.id == entityId then { e with behaviors := e.behaviors ++ [behavior] } else e) }

/-- `removeBehavior` store action: filters out every behavior of the given type
on the target entity. -/
def removeBehavior (entityId : String) (behaviorType : String) (s : GameState) : GameState :=
  { s with entities :=
      s.entities.map (fun e =>
        if e.id == entityId then
          { e with behaviors := e.behaviors.filter (fun b => b.type != behaviorType) }
        else e) }

/-- `defineShape` store action: `customShapes.set(name.toLowerCase(), parts)` on
a copy of the map. -/
def defineShape (name : String) (parts : List ShapePrimitive) (s : GameState) : GameState :=
  { s with customShapes := mapSet s.customShapes name.toLower parts }

/-- `getShape` store read. -/
def getShape (name : String) (s : GameState) : Option (List ShapePrimitive) :=
  mapGet s.customShapes name.toLower

end GameStore

/-- The store's `initialEntities`: 1 lake and 5 trees. -/
def initialEntities : List EntityConfig :=
  [ { id := "lake-1", name := "Lake", x := 600, y := 400, width := 150, height := 100,
      shape := "lake", color := "#4A90D9", solid := true, behaviors := [] },
    { id := "tree-1", name := "Tree", x := 100, y := 150, width := 40, height := 60,
      shape := "tree", color := "#228B22", solid := true, behaviors := [] },
    { id := "tree-2", name := "Tree", x := 250, y := 100, width := 40, height := 60,
      shape := "tree", color := "#228B22", solid := true, behaviors := [] },
    { id := "tree-3", name := "Tree", x := 450, y := 200, width := 40, height := 60,
      shape := "tree", color := "#228B22", solid := true, behaviors := [] },
    { id := "tree-4", name := "Tree", x := 150, y := 450, width := 40, height := 60,
      shape := "tree", color := "#228B22", solid := true, behaviors := [] },
    { id := "tree-5", name := "Tree", x := 350, y := 500, width := 40, height := 60,
      shape := "tree", color := "#228B22", solid := true, behaviors := [] } ]

/-- The store's initial state. -/
def initialGameState : GameState :=
  { player :=
      { x := 400, y := 300, health := 100, maxHealth := 100, points := 0,
        appearance := { shape := "duck", color := "#FFD700", size := 1 } },
    world := { width := 800, height := 600, terrainColor := "#90EE90", skyColor := "#87CEEB" },
    entities := initialEntities,
    customShapes := [] }

/-- A `Change` record (`src/src/sandbox/types.ts`): one applied mutation with
its redo (`forward`) and undo (`reverse`) closures.  The closures capture values
and act on the State Store, so they are modelled as `GameState → GameState`. -/
structure Change where
  type : String
  description : String
  forward : GameState → GameState
  reverse : GameState → GameState

/-- Apply every change's `reverse` in reverse order of recording
(`SandboxAPI.rollback`'s loop `for (i = changes.length - 1; i >= 0; i--)`). -/
def applyReverses (cs : List Change) (g : GameState) : GameState :=
  cs.reverse.foldl (fun g c => c.reverse g) g

/-- Apply every change's `forward` in the original recording order
(the history store's redo loop `for (const change of changes)`). -/
def applyForwards (cs : List Change) (g : GameState) : GameState :=
  cs.foldl (fun g c => c.forward g) g

/-- `CreateEntityOptions` from `src/src/sandbox/types.ts`. -/
structure CreateEntityOptions where
  name : String
  x : Int
  y : Int
  width : Int
  height : Int
  shape : String
  color : String
  solid : Option Bool := none
deriving Repr, DecidableEq

/-- The instance state of class `SandboxAPI` (`src/src/sandbox/SandboxAPI.ts`).
`now` models `Date.now()` during this execution. -/
structure SandboxAPI where
  changes : List Change
  messages : List String
  entityCounter : Nat
  lastCreatedEntityId : Option String
  cheatModeEnabled : Bool
  createdEntities : List (String × String)
  now : Nat

/-- Field initialisers of a fresh `new SandboxAPI()`. -/
def SandboxAPI.new (now : Nat) : SandboxAPI :=
  { changes := [], messages := [], entityCounter := 0, lastCreatedEntityId := none,
    cheatModeEnabled := false, createdEntities := [], now := now }

/-- `say`: push a message onto the buffer. -/
def SandboxAPI.say (sb : SandboxAPI) (message : String) : SandboxAPI :=
  { sb with messages := sb.messages ++ [message] }

/-- The id template `entity-${Date.now()}-${entityCounter++}`. -/
def SandboxAPI.nextEntityId (sb : SandboxAPI) : String :=
  "entity-" ++ toString sb.now ++ "-" ++ toString sb.entityCounter

/-- `SandboxAPI.createEntity`: build the entity, add it to the store, record a
Change whose `forward` re-adds the captured entity and whose `reverse` removes
it by id.  (The source's `reverse` additionally deletes the name from the
sandbox-internal `createdEntities` map, which never touches the State Store.) -/
def SandboxAPI.createEntity (sb : SandboxAPI) (g : GameState)
    (options : CreateEntityOptions) : EntityConfig × SandboxAPI × GameState :=
  let id := sb.nextEntityId
  let entity : EntityConfig :=
    { id := id, name := options.name, x := options.x, y := options.y,
      width := options.width, height := options.height, shape := options.shape,
      color := options.color, solid := options.solid.getD false, behaviors := [] }
  let g1 := GameStore.addEntity entity g
  let change : Change :=
    { type := "createEntity", description := "Created " ++ options.name,
      forward := fun g => GameStore.addEntity entity g,
      reverse := fun g => GameStore.removeEntity id g }
  (entity,
   { sb with
     changes := sb.changes ++ [change],
     entityCounter := sb.entityCounter + 1,
     lastCreatedEntityId := some id,
     createdEntities := mapSet sb.createdEntities options.name.toLower id },
   g1)

/-- `SandboxAPI.updateEntity`: sentinel `false` when the id does not resolve;
otherwise snapshot the entity, apply the partial update, and record the Change
whose `reverse` re-applies the full snapshot. -/
def SandboxAPI.updateEntity (sb : SandboxAPI) (g : GameState) (id : String)
    (updates : EntityUpdates) : Bool × SandboxAPI × GameState :=
  match GameStore.getEntity id g with
  | none => (false, sb, g)
  | some entity =>
    let previousState := entity
    let g1 := GameStore.updateEntity id updates g
    let change : Change :=
      { type := "updateEntity", description := "Updated " ++ entity.name,
        forward := fun g => GameStore.updateEntity id updates g,
        reverse := fun g => GameStore.updateEntity id previousState.toUpdates g }
    (true, { sb with changes := sb.changes ++ [change] }, g1)

/-- `SandboxAPI.deleteEntity`: sentinel `false` when the id does not resolve;
otherwise copy the entity, remove it, and record the Change whose `reverse`
re-adds the copy. -/
def SandboxAPI.deleteEntity (sb : SandboxAPI) (g : GameState) (id : String) :
    Bool × SandboxAPI × GameState :=
  match GameStore.getEntity id g with
  | none => (false, sb, g)
  | some entity =>
    let entityCopy := entity
    let g1 := GameStore.removeEntity id g
    let change : Change :=
      { type := "deleteEntity", description := "Deleted " ++ entity.name,
        forward := fun g => GameStore.removeEntity id g,
        reverse := fun g => GameStore.addEntity entityCopy g }
    (true, { sb with changes := sb.changes ++ [change] }, g1)

/-- `SandboxAPI.movePlayer`: run the store's collision-aware move, then record
a Change that teleports between the captured previous and new positions. -/
def SandboxAPI.movePlayer (sb : SandboxAPI) (g : GameState) (dx dy : Int) :
    SandboxAPI × GameState :=
  let prevX := g.player.x
  let prevY := g.player.y
  let g1 := GameStore.movePlayer dx dy g
  let newPlayer := g1.player
  let change : Change :=
    { type := "movePlayer", description := "Moved player",
      forward := fun g => GameStore.teleportPlayer newPlayer.x newPlayer.y g,
      reverse := fun g => GameStore.teleportPlayer prevX prevY g }
  ({ sb with changes := sb.changes ++ [change] }, g1)

/-- `SandboxAPI.teleportPlayer`. -/
def SandboxAPI.teleportPlayer (sb : SandboxAPI) (g : GameState) (x y : Int) :
    SandboxAPI × GameState :=
  let prevX := g.player.x
  let prevY := g.player.y
  let g1 := GameStore.teleportPlayer x y g
  let change : Change :=
    { type := "teleportPlayer",
      description := "Teleported player to (" ++ toString x ++ ", " ++ toString y ++ ")",
      forward := fun g => GameStore.teleportPlayer x y g,
      reverse := fun g => GameStore.teleportPlayer prevX prevY g }
  ({ sb with changes := sb.changes ++ [change] }, g1)

/-- `SandboxAPI.setPlayerAppearance`: snapshot the appearance by copy, apply the
partial update, record the Change whose `reverse` re-applies the snapshot. -/
def SandboxAPI.setPlayerAppearance (sb : SandboxAPI) (g : GameState)
    (appearance : AppearanceUpdates) : SandboxAPI × GameState :=
  let prevAppearance := g.player.appearance
  let g1 := GameStore.setPlayerAppearance appearance g
  let change : Change :=
    { type := "setPlayerAppearance", description := "Changed player appearance",
      forward := fun g => GameStore.setPlayerAppearance appearance g,
      reverse := fun g => GameStore.setPlayerAppearance prevAppearance.toUpdates g }
  ({ sb with changes := sb.changes ++ [change] }, g1)

/-- `SandboxAPI.modifyHealth`: apply the clamped store action and record a
Change over the actual (clamped) delta. -/
def SandboxAPI.modifyHealth (sb : SandboxAPI) (g : GameState) (amount : Int) :
    SandboxAPI × GameState :=
  let prevHealth := g.player.health
  let g1 := GameStore.modifyHealth amount g
  let actualChange := g1.player.health - prevHealth
  let change : Change :=
    { type := "modifyHealth", description := "Changed health by " ++ toString amount,
      forward := fun g => GameStore.modifyHealth actualChange g,
      reverse := fun g => GameStore.modifyHealth (-actualChange) g }
  ({ sb with changes := sb.changes ++ [change] }, g1)

/-- `SandboxAPI.modifyPoints`: gated by `cheatModeEnabled`; when the flag is
unset, emit the denial via `say` and do nothing else. -/
def SandboxAPI.modifyPoints (sb : SandboxAPI) (g : GameState) (amount : Int) :
    SandboxAPI × GameState :=
  if !sb.cheatModeEnabled then
    (sb.say "Points can only be earned through gameplay!", g)
  else
    let prevPoints := g.player.points
    let g1 := GameStore.modifyPoints amount g
    let actualChange := g1.player.points - prevPoints
    let change : Change :=
      { type := "modifyPoints", description := "Changed points by " ++ toString amount,
        forward := fun g => GameStore.modifyPoints actualChange g,
        reverse := fun g => GameStore.modifyPoints (-actualChange) g }
    ({ sb with changes := sb.changes ++ [change] }, g1)

/-- `SandboxAPI.enableCheats`: set the instance flag when the exact unlock code
is presented. -/
def SandboxAPI.enableCheats (sb : SandboxAPI) (_g : GameState) (code : String) :
    Bool × SandboxAPI :=
  if code == "quackquack" then
    (true, { sb with cheatModeEnabled := true }.say "🎮 Cheat mode enabled!")
  else
    (false, sb.say "Invalid cheat code.")

/-- `SandboxAPI.setTerrainColor`. -/
def SandboxAPI.setTerrainColor (sb : SandboxAPI) (g : GameState) (color : String) :
    SandboxAPI × GameState :=
  let prevColor := g.world.terrainColor
  let g1 := GameStore.setTerrainColor color g
  let change : Change :=
    { type := "setTerrainColor", description := "Changed terrain to " ++ color,
      forward := fun g => GameStore.setTerrainColor color g,
      reverse := fun g => GameStore.setTerrainColor prevColor g }
  ({ sb with changes := sb.changes ++ [change] }, g1)

/-- `SandboxAPI.setSkyColor`. -/
def SandboxAPI.setSkyColor (sb : SandboxAPI) (g : GameState) (color : String) :
    SandboxAPI × GameState :=
  let prevColor := g.world.skyColor
  let g1 := GameStore.setSkyColor color g
  let change : Change :=
    { type := "setSkyColor", description := "Changed sky to " ++ color,
      forward := fun g => GameStore.setSkyColor color g,
      reverse := fun g => GameStore.setSkyColor prevColor g }
  ({ sb with changes := sb.changes ++ [change] }, g1)

/-- `SandboxAPI.addBehavior`: sentinel `false` when the id does not resolve. -/
def SandboxAPI.addBehavior (sb : SandboxAPI) (g : GameState) (entityId : String)
    (behavior : BehaviorConfig) : Bool × SandboxAPI × GameState :=
  match GameStore.getEntity entityId g with
  | none => (false, sb, g)
  | some entity =>
    let g1 := GameStore.addBehavior entityId behavior g
    let change : Change :=
      { type := "addBehavior",
        description := "Added " ++ behavior.type ++ " to " ++ entity.name,
        forward := fun g => GameStore.addBehavior entityId behavior g,
        reverse := fun g => GameStore.removeBehavior entityId behavior.type g }
    (true, { sb with changes := sb.changes ++ [change] }, g1)

/-- `SandboxAPI.removeBehavior`: sentinel `false` when the id or the behavior
type does not resolve; `reverse` re-adds the first behavior of that type. -/
def SandboxAPI.removeBehavior (sb : SandboxAPI) (g : GameState) (entityId : String)
    (behaviorType : String) : Bool × SandboxAPI × GameState :=
  match GameStore.getEntity entityId g with
  | none => (false, sb, g)
  | some entity =>
    match entity.behaviors.find? (fun b => b.type == behaviorType) with
    | none => (false, sb, g)
    | some behavior =>
      let g1 := GameStore.removeBehavior entityId behaviorType g
      let change : Change :=
        { type := "removeBehavior",
          description := "Removed " ++ behaviorType ++ " from " ++ entity.name,
          forward := fun g => GameStore.removeBehavior entityId behaviorType g,
          reverse := fun g => GameStore.addBehavior entityId behavior g }
      (true, { sb with changes := sb.changes ++ [change] }, g1)

/-- `SandboxAPI.defineShape`: capture the previous definition; `reverse`
restores it, or sets the empty parts list when the name was undefined (the
source comments that it cannot truly undefine a shape). -/
def SandboxAPI.defineShape (sb : SandboxAPI) (g : GameState) (name : String)
    (parts : List ShapePrimitive) : SandboxAPI × GameState :=
  let prevShape := GameStore.getShape name g
  let g1 := GameStore.defineShape name parts g
  let change : Change :=
    { type := "defineShape", description := "Defined shape " ++ name,
      forward := fun g => GameStore.defineShape name parts g,
      reverse := fun g =>
        match prevShape with
        | some ps => GameStore.defineShape name ps g
        | none => GameStore.defineShape name [] g }
  ({ sb with changes := sb.changes ++ [change] }, g1)

/-- `SandboxAPI.rollback`: apply reverses in reverse order, then clear the
mutable `changes` field (`this.changes = []`). -/
def SandboxAPI.rollback (sb : SandboxAPI) (g : GameState) : SandboxAPI × GameState :=
  ({ sb with changes := [] }, applyReverses sb.changes g)

/-- One capability call of a script: one constructor per mutating or
communication method of the Capability Surface, plus `throwErr` for a script
statement that throws.  Pure query and utility methods (`getEntity`,
`getAllEntities`, `getPlayer`, `getWorldInfo`, `random`, `distance`, `log`, …)
neither mutate the State Store nor record Changes, so a script's effect on the
store and on the Change list is determined by its sequence of these calls. -/
inductive Cmd where
  | createEntity (options : CreateEntityOptions)
  | updateEntity (id : String) (updates : EntityUpdates)
  | deleteEntity (id : String)
  | movePlayer (dx dy : Int)
  | teleportPlayer (x y : Int)
  | setPlayerAppearance (appearance : AppearanceUpdates)
  | modifyHealth (amount : Int)
  | modifyPoints (amount : Int)
  | enableCheats (code : String)
  | setTerrainColor (color : String)
  | setSkyColor (color : String)
  | addBehavior (entityId : String) (behavior : BehaviorConfig)
  | removeBehavior (entityId : String) (behaviorType : String)
  | defineShape (name : String) (parts : List ShapePrimitive)
  | say (message : String)
  | throwErr (msg : String)
deriving Repr

/-- Execute one capability call against the sandbox and the State Store.
Only `throwErr` produces an exception (`some msg`); every capability method
of the surface absorbs its own failure modes into sentinel return values. -/
def runCmd (c : Cmd) (sb : SandboxAPI) (g : GameState) :
    Option String × SandboxAPI × GameState :=
  match c with
  | .createEntity options =>
    let r := sb.createEntity g options
    (none, r.2.1, r.2.2)
  | .updateEntity id updates =>
    let r := sb.updateEntity g id updates
    (none, r.2.1, r.2.2)
  | .deleteEntity id =>
    let r := sb.deleteEntity g id
    (none, r.2.1, r.2.2)
  | .movePlayer dx dy =>
    let r := sb.movePlayer g dx dy
    (none, r.1, r.2)
  | .teleportPlayer x y =>
    let r := sb.teleportPlayer g x y
    (none, r.1, r.2)
  | .setPlayerAppearance a =>
    let r := sb.setPlayerAppearance g a
    (none, r.1, r.2)
  | .modifyHealth amount =>
    let r := sb.modifyHealth g amount
    (none, r.1, r.2)
  | .modifyPoints amount =>
    let r := sb.modifyPoints g amount
    (none, r.1, r.2)
  | .enableCheats code =>
    let r := sb.enableCheats g code
    (none, r.2, g)
  | .setTerrainColor color =>
    let r := sb.setTerrainColor g color
    (none, r.1, r.2)
  | .setSkyColor color =>
    let r := sb.setSkyColor g color
    (none, r.1, r.2)
  | .addBehavior entityId behavior =>
    let r := sb.addBehavior g entityId behavior
    (none, r.2.1, r.2.2)
  | .removeBehavior entityId behaviorType =>
    let r := sb.removeBehavior g entityId behaviorType
    (none, r.2.1, r.2.2)
  | .defineShape name parts =>
    let r := sb.defineShape g name parts
    (none, r.1, r.2)
  | .say message => (none, sb.say message, g)
  | .throwErr msg => (some msg, sb, g)

/-- Run a script to completion or to its first thrown exception, threading the
sandbox instance and the State Store. -/
def runScript : List Cmd → SandboxAPI → GameState →
    Option String × SandboxAPI × GameState
  | [], sb, g => (none, sb, g)
  | c :: cs, sb, g =>
    match runCmd c sb g with
    | (some e, sb', g') => (some e, sb', g')
    | (none, sb', g') => runScript cs sb' g'

/-- `SandboxExecutionResult` from `src/src/sandbox/types.ts`.  In the source,
`changes` is the array reference returned by `getChanges()` while the
`rollback` closure reads the sandbox's mutable `changes` field (which
`rollback()` re-points to a fresh empty array).  `rollbackChanges` models the
list that the `rollback` closure will replay — invoking the closure applies
their reverses in reverse order and then empties `rollbackChanges`, leaving
`changes` untouched. -/
structure SandboxExecutionResult where
  success : Bool
  message : Option String
  error : Option String
  changes : List Change
  rollbackChanges : List Change

/-- `executeSandboxedCode` (duckworld-2d `src/sandbox/executor.ts`): construct a
fresh `SandboxAPI`, run the script; on normal return report success with the
last `say` message, the accumulated changes and a live rollback closure; on
throw, roll back immediately and report failure with empty changes and a no-op
rollback.  Returns the result together with the State Store after the call. -/
def executeSandboxedCode (code : List Cmd) (now : Nat) (g : GameState) :
    SandboxExecutionResult × GameState :=
  let sandbox := SandboxAPI.new now
  match runScript code sandbox g with
  | (none, sb, g') =>
    ({ success := true,
       message := sb.messages.getLast?,
       error := none,
       changes := sb.changes,
       rollbackChanges := sb.changes }, g')
  | (some err, sb, g') =>
    let rolled := sb.rollback g'
    ({ success := false,
       message := none,
       error := some err,
       changes := [],
       rollbackChanges := [] }, rolled.2)

/-- `HistoryEntry` from the duckworld-2d history store. -/
structure HistoryEntry where
  id : String
  timestamp : Nat
  userInput : String
  result : SandboxExecutionResult

/-- The state of `useHistoryStore`: entries plus cursor (`currentIndex`),
`-1` meaning nothing committed. -/
structure HistoryStore where
  entries : List HistoryEntry
  currentIndex : Int

/-- The history store's initial state. -/
def HistoryStore.empty : HistoryStore := { entries := [], currentIndex := -1 }

/-- `addEntry`: drop entries after the cursor (`entries.slice(0, currentIndex + 1)`),
append the new entry, set the cursor to the new last index. -/
def HistoryStore.addEntry (st : HistoryStore) (userInput : String)
    (result : SandboxExecutionResult) (now : Nat) : HistoryStore :=
  let entries := st.entries.take (st.currentIndex + 1).toNat
  let newEntry : HistoryEntry :=
    { id := "history-" ++ toString now, timestamp := now,
      userInput := userInput, result := result }
  { entries := entries ++ [newEntry], currentIndex := (entries.length : Int) }

/-- `canUndo`. -/
def HistoryStore.canUndo (st : HistoryStore) : Bool := decide (st.currentIndex ≥ 0)

/-- `canRedo`. -/
def HistoryStore.canRedo (st : HistoryStore) : Bool :=
  decide (st.currentIndex < (st.entries.length : Int) - 1)

/-- The State Store together with the history store: the state visible to the
undo/redo entry points. -/
structure System where
  game : GameState
  history : HistoryStore

/-- `undo`: return false when the cursor is below 0; otherwise invoke
`entries[currentIndex].result.rollback()` (replay the entry's not-yet-cleared
sandbox change list in reverse and clear it) and decrement the cursor.
The source would fault on a cursor beyond the entries array; that situation is
unreachable from the store's operations, and the model returns false there. -/
def System.undo (sys : System) : Bool × System :=
  let st := sys.history
  if st.currentIndex < 0 then (false, sys)
  else
    let i := st.currentIndex.toNat
    match st.entries[i]? with
    | none => (false, sys)
    | some entry =>
      let g' := applyReverses entry.result.rollbackChanges sys.game
      let entry' := { entry with result := { entry.result with rollbackChanges := [] } }
      (true,
       { game := g',
         history := { entries := st.entries.set i entry',
                      currentIndex := st.currentIndex - 1 } })

/-- `redo`: return false when the cursor is at the last index; otherwise replay
every `forward` of the entry ahead of the cursor in original order and
increment the cursor. -/
def System.redo (sys : System) : Bool × System :=
  let st := sys.history
  if st.currentIndex ≥ (st.entries.length : Int) - 1 then (false, sys)
  else
    let i := (st.currentIndex + 1).toNat
    match st.entries[i]? with
    | none => (false, sys)
    | some nextEntry =>
      (true,
       { game := applyForwards nextEntry.result.changes sys.game,
         history := { st with currentIndex := st.currentIndex + 1 } })

/-- One committed execution: the script, the user input recorded with it, and
the `Date.now()` timestamp of the execution. -/
structure ScriptRun where
  code : List Cmd
  userInput : String
  now : Nat

/-- The caller-side commit flow (ChatPanel / CodeIDEPanel): execute the script
and push the result onto the History Stack only when it succeeded. -/
def commitScript (s : ScriptRun) (sys : System) : System :=
  let r := executeSandboxedCode s.code s.now sys.game
  if r.1.success then
    { game := r.2, history := sys.history.addEntry s.userInput r.1 s.now }
  else
    { game := r.2, history := sys.history }

/-- Commit a sequence of scripts in order. -/
def commitMany (scripts : List ScriptRun) (sys : System) : System :=
  scripts.foldl (fun sys s => commitScript s sys) sys

/-- Call `undo()` n times. -/
def undoTimes : Nat → System → System
  | 0, sys => sys
  | n + 1, sys => undoTimes n (System.undo sys).2

/-! ### The restricted executor's symbol table

`executeSandboxedCode` builds `safeGlobals`, compiles the script with
`new Function(...globalNames, code)` — a function whose parameter list is
exactly `Object.keys(safeGlobals)` in insertion order — and invokes it with
`Object.values(safeGlobals)`.  Inside the compiled function every one of these
names resolves to the corresponding parameter, shadowing any ambient global of
the same name. -/

/-- The host values placed in the executor's symbol table. -/
inductive SafeValue where
  | gameAPI
  | mathObj
  | parseIntFn
  | parseFloatFn
  | jsonObj
  | arrayCtor
  | objectCtor
  | stringCtor
  | numberCtor
  | booleanCtor
  | dateCtor
  | consoleShim
  | undefinedValue
deriving Repr, DecidableEq

/-- The `safeGlobals` object literal of `executeSandboxedCode`, in source
order: the capability surface, the allow-listed utility bindings, and the
dangerous ambient names each bound to `undefined`. -/
def safeGlobals : List (String × SafeValue) :=
  [ ("game", .gameAPI),
    ("Math", .mathObj),
    ("parseInt", .parseIntFn),
    ("parseFloat", .parseFloatFn),
    ("JSON", .jsonObj),
    ("Array", .arrayCtor),
    ("Object", .objectCtor),
    ("String", .stringCtor),
    ("Number", .numberCtor),
    ("Boolean", .booleanCtor),
    ("Date", .dateCtor),
    ("console", .consoleShim),
    ("window", .undefinedValue),
    ("document", .undefinedValue),
    ("fetch", .undefinedValue),
    ("localStorage", .undefinedValue),
    ("sessionStorage", .undefinedValue),
    ("XMLHttpRequest", .undefinedValue),
    ("WebSocket", .undefinedValue),
    ("eval", .undefinedValue),
    ("Function", .undefinedValue) ]

/-- `Object.keys(safeGlobals)`: the compiled function's parameter list. -/
def globalNames : List String := safeGlobals.map Prod.fst

/-- `Object.values(safeGlobals)`: the argument list of the invocation. -/
def globalValues : List SafeValue := safeGlobals.map Prod.snd

/-- The dangerous ambient capabilities the executor explicitly shadows. -/
def dangerousGlobals : List String :=
  ["window", "document", "fetch", "localStorage", "sessionStorage",
   "XMLHttpRequest", "WebSocket", "eval", "Function"]

/-- Name resolution as seen by the compiled script for the names in the symbol
table: the parameter binding produced by calling the compiled function. -/
def scriptScopeLookup (name : String) : Option SafeValue :=
  mapGet safeGlobals name

/-! ### Clean-reversibility conditions

`cleanCmd` is the executable per-call condition under which a capability call's
recorded `reverse` exactly compensates its effect (up to entity-list order for
`deleteEntity`).  The conditions are dynamic — evaluated against the State
Store at the moment of the call. -/

/-- Exactly one behavior of the given type, and it is the last of the list
(so that `removeBehavior`'s reverse, which appends, restores the list). -/
def behaviorsEnd : List BehaviorConfig → String → Bool
  | [], _ => false
  | [b], t => b.type == t
  | b :: b2 :: bs, t => b.type != t && behaviorsEnd (b2 :: bs) t

/-- Per-call clean-reversibility condition. -/
def cleanCmd (c : Cmd) (sb : SandboxAPI) (g : GameState) : Bool :=
  match c with
  | .createEntity _ =>
    g.entities.all (fun e => e.id != sb.nextEntityId)
  | .updateEntity id u =>
    match GameStore.getEntity id g with
    | none => true
    | some _ =>
      u.id == none && (g.entities.countP (fun e => e.id == id) == 1)
  | .deleteEntity id =>
    match GameStore.getEntity id g with
    | none => true
    | some _ => g.entities.countP (fun e => e.id == id) == 1
  | .movePlayer _ _ => true
  | .teleportPlayer _ _ => true
  | .setPlayerAppearance _ => true
  | .modifyHealth _ =>
    decide (0 ≤ g.player.health) && decide (g.player.health ≤ g.player.maxHealth)
  | .modifyPoints _ =>
    !sb.cheatModeEnabled || decide (0 ≤ g.player.points)
  | .enableCheats _ => true
  | .setTerrainColor _ => true
  | .setSkyColor _ => true
  | .addBehavior entityId behavior =>
    match GameStore.getEntity entityId g with
    | none => true
    | some e =>
      (g.entities.countP (fun e2 => e2.id == entityId) == 1) &&
      e.behaviors.all (fun b => b.type != behavior.type)
  | .removeBehavior entityId behaviorType =>
    match GameStore.getEntity entityId g with
    | none => true
    | some e =>
      match e.behaviors.find? (fun b => b.type == behaviorType) with
      | none => true
      | some _ =>
        (g.entities.countP (fun e2 => e2.id == entityId) == 1) &&
        behaviorsEnd e.behaviors behaviorType
  | .defineShape name _ => (GameStore.getShape name g).isSome
  | .say _ => true
  | .throwErr _ => true

/-- Clean-reversibility of a whole run: every call executed before the first
throw (or the end of the script) satisfies its `cleanCmd` condition. -/
def cleanRun : List Cmd → SandboxAPI → GameState → Bool
  | [], _, _ => true
  | c :: cs, sb, g =>
    cleanCmd c sb g &&
    match runCmd c sb g with
    | (some _, _, _) => true
    | (none, sb', g') => cleanRun cs sb' g'

/-- Clean-committability of a sequence of script executions: each execution
succeeds (no throw) and satisfies `cleanRun` against the store state it
actually runs from. -/
def cleanCommits : List ScriptRun → GameState → Bool
  | [], _ => true
  | s :: rest, g =>
    let sb := SandboxAPI.new s.now
    cleanRun s.code sb g &&
    (runScript s.code sb g).1 == none &&
    cleanCommits rest (runScript s.code sb g).2.2

/-! ### Store equivalence

Exact restoration of the State Store can fail only in the order of the entity
array (`deleteEntity`'s reverse re-appends at the end).  `StoreRel` is equality
of player, world and shapes, with the entity lists equal up to permutation. -/

/-- Equality of the State Store up to reordering of the entity list. -/
def StoreRel (g g' : GameState) : Prop :=
  g.player = g'.player ∧ g.world = g'.world ∧ g.customShapes = g'.customShapes ∧
  g.entities.Perm g'.entities

instance (g g' : GameState) : Decidable (StoreRel g g') := by
  unfold StoreRel; infer_instance

/-- A change whose `forward` and `reverse` closures respect `StoreRel`.  Every
closure the Capability Surface records is built from the store's per-id `map`
and `filter` operations, an append, or a player/world/shape update, all of
which are congruent with respect to entity-list permutation. -/
def GoodChange (c : Change) : Prop :=
  (∀ g g', StoreRel g g' → StoreRel (c.forward g) (c.forward g')) ∧
  (∀ g g', StoreRel g g' → StoreRel (c.reverse g) (c.reverse g'))

/-- The change list one capability call appends (`changes.push`), by cases on
the call, mirroring the branches of the `SandboxAPI` methods (the consistency
of this list with the methods themselves is the lemma `runCmd_changes`). -/
def cmdChanges (c : Cmd) (sb : SandboxAPI) (g : GameState) : List Change :=
  match c with
  | .createEntity options =>
    let id := sb.nextEntityId
    let entity : EntityConfig :=
      { id := id, name := options.name, x := options.x, y := options.y,
        width := options.width, height := options.height, shape := options.shape,
        color := options.color, solid := options.solid.getD false, behaviors := [] }
    [{ type := "createEntity", description := "Created " ++ options.name,
       forward := fun g => GameStore.addEntity entity g,
       reverse := fun g => GameStore.removeEntity id g }]
  | .updateEntity id updates =>
    match GameStore.getEntity id g with
    | none => []
    | some entity =>
      [{ type := "updateEntity", description := "Updated " ++ entity.name,
         forward := fun g => GameStore.updateEntity id updates g,
         reverse := fun g => GameStore.updateEntity id entity.toUpdates g }]
  | .deleteEntity id =>
    match GameStore.getEntity id g with
    | none => []
    | some entity =>
      [{ type := "deleteEntity", description := "Deleted " ++ entity.name,
         forward := fun g => GameStore.removeEntity id g,
         reverse := fun g => GameStore.addEntity entity g }]
  | .movePlayer dx dy =>
    [{ type := "movePlayer", description := "Moved player",
       forward := fun g2 =>
         GameStore.teleportPlayer (GameStore.movePlayer dx dy g).player.x
           (GameStore.movePlayer dx dy g).player.y g2,
       reverse := fun g2 => GameStore.teleportPlayer g.player.x g.player.y g2 }]
  | .teleportPlayer x y =>
    [{ type := "teleportPlayer",
       description := "Teleported player to (" ++ toString x ++ ", " ++ toString y ++ ")",
       forward := fun g2 => GameStore.teleportPlayer x y g2,
       reverse := fun g2 => GameStore.teleportPlayer g.player.x g.player.y g2 }]
  | .setPlayerAppearance a =>
    [{ type := "setPlayerAppearance", description := "Changed player appearance",
       forward := fun g2 => GameStore.setPlayerAppearance a g2,
       reverse := fun g2 =>
         GameStore.setPlayerAppearance g.player.appearance.toUpdates g2 }]
  | .modifyHealth amount =>
    let actualChange :=
      (GameStore.modifyHealth amount g).player.health - g.player.health
    [{ type := "modifyHealth", description := "Changed health by " ++ toString amount,
       forward := fun g2 => GameStore.modifyHealth actualChange g2,
       reverse := fun g2 => GameStore.modifyHealth (-actualChange) g2 }]
  | .modifyPoints amount =>
    if !sb.cheatModeEnabled then []
    else
      let actualChange :=
        (GameStore.modifyPoints amount g).player.points - g.player.points
      [{ type := "modifyPoints", description := "Changed points by " ++ toString amount,
         forward := fun g2 => GameStore.modifyPoints actualChange g2,
         reverse := fun g2 => GameStore.modifyPoints (-actualChange) g2 }]
  | .enableCheats _ => []
  | .setTerrainColor color =>
    [{ type := "setTerrainColor", description := "Changed terrain to " ++ color,
       forward := fun g2 => GameStore.setTerrainColor color g2,
       reverse := fun g2 => GameStore.setTerrainColor g.world.terrainColor g2 }]
  | .setSkyColor color =>
    [{ type := "setSkyColor", description := "Changed sky to " ++ color,
       forward := fun g2 => GameStore.setSkyColor color g2,
       reverse := fun g2 => GameStore.setSkyColor g.world.skyColor g2 }]
  | .addBehavior entityId behavior =>
    match GameStore.getEntity entityId g with
    | none => []
    | some entity =>
      [{ type := "addBehavior",
         description := "Added " ++ behavior.type ++ " to " ++ entity.name,
         forward := fun g2 => GameStore.addBehavior entityId behavior g2,
         reverse := fun g2 => GameStore.removeBehavior entityId behavior.type g2 }]
  | .removeBehavior entityId behaviorType =>
    match GameStore.getEntity entityId g with
    | none => []
    | some entity =>
      match entity.behaviors.find? (fun b => b.type == behaviorType) with
      | none => []
      | some behavior =>
        [{ type := "removeBehavior",
           description := "Removed " ++ behaviorType ++ " from " ++ entity.name,
           forward := fun g2 => GameStore.removeBehavior entityId behaviorType g2,
           reverse := fun g2 => GameStore.addBehavior entityId behavior g2 }]
  | .defineShape name parts =>
    [{ type := "defineShape", description := "Defined shape " ++ name,
       forward := fun g2 => GameStore.defineShape name parts g2,
       reverse := fun g2 =>
         match GameStore.getShape name g with
         | some ps => GameStore.defineShape name ps g2
         | none => GameStore.defineShape name [] g2 }]
  | .say _ => []
  | .throwErr _ => []

/-- The change list a whole run records, in call order: the concatenation of
the per-call lists up to the first throw. -/
def scriptChanges : List Cmd → SandboxAPI → GameState → List Change
  | [], _, _ => []
  | c :: cs, sb, g =>
    match runCmd c sb g with
    | (some _, _, _) => cmdChanges c sb g
    | (none, sb', g') => cmdChanges c sb g ++ scriptChanges cs sb' g'

/-- The mutating actions of the State Store (`useGameStore`), as data: every
state-changing action the store exposes. -/
inductive StoreOp where
  | movePlayer (dx dy : Int)
  | teleportPlayer (x y : Int)
  | setPlayerAppearance (appearance : AppearanceUpdates)
  | modifyHealth (amount : Int)
  | modifyPoints (amount : Int)
  | addEntity (entity : EntityConfig)
  | updateEntity (id : String) (updates : EntityUpdates)
  | removeEntity (id : String)
  | setTerrainColor (color : String)
  | setSkyColor (color : String)
  | addBehavior (entityId : String) (behavior : BehaviorConfig)
  | removeBehavior (entityId : String) (behaviorType : String)
  | defineShape (name : String) (parts : List ShapePrimitive)
deriving Repr

/-- Dispatch a `StoreOp` to the corresponding store action. -/
def applyStoreOp (op : StoreOp) (s : GameState) : GameState :=
  match op with
  | .movePlayer dx dy => GameStore.movePlayer dx dy s
  | .teleportPlayer x y => GameStore.teleportPlayer x y s
  | .setPlayerAppearance a => GameStore.setPlayerAppearance a s
  | .modifyHealth amount => GameStore.modifyHealth amount s
  | .modifyPoints amount => GameStore.modifyPoints amount s
  | .addEntity e => GameStore.addEntity e s
  | .updateEntity id u => GameStore.updateEntity id u s
  | .removeEntity id => GameStore.removeEntity id s
  | .setTerrainColor color => GameStore.setTerrainColor color s
  | .setSkyColor color => GameStore.setSkyColor color s
  | .addBehavior entityId b => GameStore.addBehavior entityId b s
  | .removeBehavior entityId t => GameStore.removeBehavior entityId t s
  | .defineShape name parts => GameStore.defineShape name parts s

/-- The player bounds invariant: health within `[0, maxHealth]`, points
nonnegative. -/
def PlayerInvariant (s : GameState) : Prop :=
  0 ≤ s.player.health ∧ s.player.health ≤ s.player.maxHealth ∧ 0 ≤ s.player.points

instance (s : GameState) : Decidable (PlayerInvariant s) := by
  unfold PlayerInvariant; infer_instance

/-- A concrete recorded change, as `setSkyColor` records it, used by witness
scenarios. -/
def witnessChange : Change :=
  { type := "setSkyColor", description := "Changed sky to red",
    forward := fun g => GameStore.setSkyColor "red" g,
    reverse := fun g => GameStore.setSkyColor "#87CEEB" g }

/-- A concrete committed history entry used by witness scenarios. -/
def witnessEntry : HistoryEntry :=
  { id := "history-0", timestamp := 0, userInput := "make the sky red",
    result := { success := true, message := none, error := none,
                changes := [witnessChange], rollbackChanges := [witnessChange] } }

/-- A one-entry system with the cursor on the entry. -/
def witnessSystem : System :=
  { game := initialGameState,
    history := { entries := [witnessEntry], currentIndex := 0 } }

/-- A one-entry system with the cursor below the entry. -/
def witnessSystemBelow : System :=
  { game := initialGameState,
    history := { entries := [witnessEntry], currentIndex := -1 } }

/-- The entity ids targeted by a script's `deleteEntity` calls.  Rollback may
re-add exactly these entities at the end of the entity array, and a redo's
replayed forwards delete exactly these ids again, which is why undo-then-redo
is exact while undo alone is exact only up to entity order. -/
def delIds : List Cmd → List String
  | [] => []
  | c :: cs =>
    match c with
    | .deleteEntity id => id :: delIds cs
    | _ => delIds cs

/-- Equality of two stores except for the placement of entities whose id is in
`ids`: player, world and shapes are equal, the entity lists are permutations,
and after dropping every entity whose id is in `ids` the entity lists are
equal as lists.  With `ids := []` this is plain equality of the stores. -/
def RelD (ids : List String) (X g : GameState) : Prop :=
  X.player = g.player ∧ X.world = g.world ∧ X.customShapes = g.customShapes ∧
  X.entities.Perm g.entities ∧
  X.entities.filter (fun e => !ids.contains e.id) =
    g.entities.filter (fun e => !ids.contains e.id)

/-! ## Lemmas -/

theorem StoreRel.refl (g : GameState) : StoreRel g g :=
  ⟨rfl, rfl, rfl, List.Perm.refl _⟩

theorem StoreRel.trans {g₁ g₂ g₃ : GameState}
    (h₁ : StoreRel g₁ g₂) (h₂ : StoreRel g₂ g₃) : StoreRel g₁ g₃ :=
  ⟨h₁.1.trans h₂.1, h₁.2.1.trans h₂.2.1, h₁.2.2.1.trans h₂.2.2.1,
   h₁.2.2.2.trans h₂.2.2.2⟩

theorem StoreRel.of_eq {g₁ g₂ : GameState} (h : g₁ = g₂) : StoreRel g₁ g₂ :=
  h ▸ StoreRel.refl g₁

theorem applyReverses_nil (g : GameState) : applyReverses [] g = g := rfl

theorem applyForwards_nil (g : GameState) : applyForwards [] g = g := rfl

theorem applyReverses_cons (c : Change) (cs : List Change) (g : GameState) :
    applyReverses (c :: cs) g = c.reverse (applyReverses cs g) := by
  simp [applyReverses, List.foldl_append]

theorem applyForwards_cons (c : Change) (cs : List Change) (g : GameState) :
    applyForwards (c :: cs) g = applyForwards cs (c.forward g) := rfl

theorem applyReverses_singleton (c : Change) (g : GameState) :
    applyReverses [c] g = c.reverse g := rfl

theorem applyForwards_singleton (c : Change) (g : GameState) :
    applyForwards [c] g = c.forward g := rfl

theorem applyReverses_append (a b : List Change) (g : GameState) :
    applyReverses (a ++ b) g = applyReverses a (applyReverses b g) := by
  induction a with
  | nil => rfl
  | cons c a ih => rw [List.cons_append, applyReverses_cons, applyReverses_cons, ih]

theorem applyForwards_append (a b : List Change) (g : GameState) :
    applyForwards (a ++ b) g = applyForwards b (applyForwards a g) := by
  simp [applyForwards, List.foldl_append]

/-- `applyReverses` is the right fold of the `reverse` closures: the reverse of
the last-recorded change is applied first and the first-recorded last. -/
theorem applyReverses_eq_foldr (cs : List Change) (g : GameState) :
    applyReverses cs g = cs.foldr (fun c acc => c.reverse acc) g := by
  induction cs with
  | nil => rfl
  | cons c cs ih => rw [applyReverses_cons, List.foldr_cons, ih]

theorem applyReverses_congr {cs : List Change}
    (hg : ∀ c ∈ cs, GoodChange c) {g g' : GameState} (h : StoreRel g g') :
    StoreRel (applyReverses cs g) (applyReverses cs g') := by
  induction cs with
  | nil => exact h
  | cons c cs ih =>
    rw [applyReverses_cons, applyReverses_cons]
    exact (hg c (List.mem_cons_self c cs)).2 _ _
      (ih (fun d hd => hg d (List.mem_cons_of_mem c hd)))

theorem applyForwards_congr {cs : List Change}
    (hg : ∀ c ∈ cs, GoodChange c) {g g' : GameState} (h : StoreRel g g') :
    StoreRel (applyForwards cs g) (applyForwards cs g') := by
  induction cs generalizing g g' with
  | nil => exact h
  | cons c cs ih =>
    rw [applyForwards_cons, applyForwards_cons]
    exact ih (fun d hd => hg d (List.mem_cons_of_mem c hd))
      ((hg c (List.mem_cons_self c cs)).1 _ _ h)

theorem filter_append_singleton {α : Type} (p : α → Bool) (l : List α) (e : α)
    (hl : ∀ x ∈ l, p x = true) (he : p e = false) :
    (l ++ [e]).filter p = l := by
  rw [List.filter_append]
  simp [List.filter_eq_self.mpr hl, List.filter_cons, he]

theorem map_id_of_mem {α : Type} (f : α → α) (l : List α)
    (h : ∀ x ∈ l, f x = x) : l.map f = l := by
  induction l with
  | nil => rfl
  | cons x l ih =>
    rw [List.map_cons, h x (List.mem_cons_self x l),
      ih (fun y hy => h y (List.mem_cons_of_mem x hy))]

theorem eq_of_countP_eq_one {α : Type} {p : α → Bool} {l : List α}
    (h : l.countP p = 1) {a b : α} (ha : a ∈ l) (hb : b ∈ l)
    (hpa : p a = true) (hpb : p b = true) : a = b := by
  rw [List.countP_eq_length_filter] at h
  obtain ⟨c, hc⟩ := List.length_eq_one.mp h
  have h1 : a ∈ l.filter p := List.mem_filter.mpr ⟨ha, hpa⟩
  have h2 : b ∈ l.filter p := List.mem_filter.mpr ⟨hb, hpb⟩
  rw [hc] at h1 h2
  simp only [List.mem_singleton] at h1 h2
  rw [h1, h2]

theorem filter_eq_singleton_of_countP_one {α : Type} {p : α → Bool} {l : List α}
    (h : l.countP p = 1) {a : α} (ha : a ∈ l) (hpa : p a = true) :
    l.filter p = [a] := by
  rw [List.countP_eq_length_filter] at h
  obtain ⟨c, hc⟩ := List.length_eq_one.mp h
  have h1 : a ∈ l.filter p := List.mem_filter.mpr ⟨ha, hpa⟩
  rw [hc] at h1
  simp only [List.mem_singleton] at h1
  rw [hc, h1]

/-- Removing the unique element satisfying `p` and re-appending it is a
permutation of the original list. -/
theorem perm_filter_not_append {α : Type} {p : α → Bool} {l : List α}
    (h : l.countP p = 1) {a : α} (ha : a ∈ l) (hpa : p a = true) :
    (l.filter (fun x => !p x) ++ [a]).Perm l := by
  have hperm := List.filter_append_perm p l
  rw [filter_eq_singleton_of_countP_one h ha hpa] at hperm
  exact (List.perm_append_comm).trans hperm

theorem mapSet_mapSet {α : Type} (m : List (String × α)) (k : String) (v w : α) :
    mapSet (mapSet m k v) k w = mapSet m k w := by
  induction m with
  | nil => simp [mapSet]
  | cons kv m ih =>
    by_cases h : kv.1 == k
    · simp [mapSet, h]
    · simp [mapSet, h, ih]

theorem mapSet_get_self {α : Type} {m : List (String × α)} {k : String} {v : α}
    (h : mapGet m k = some v) : mapSet m k v = m := by
  induction m with
  | nil => simp [mapGet] at h
  | cons kv m ih =>
    by_cases hk : kv.1 == k
    · simp [mapGet, hk] at h
      have : (k, v) = kv := by
        have := eq_of_beq hk
        cases kv; simp_all
      simp [mapSet, hk, this]
    · simp [mapGet, hk] at h
      simp [mapSet, hk, ih h]

theorem applyUpdates_toUpdates (e p : EntityConfig) :
    e.applyUpdates p.toUpdates = p := rfl

theorem appearance_applyUpdates_toUpdates (a p : PlayerAppearance) :
    a.applyUpdates p.toUpdates = p := rfl

/-- Under `behaviorsEnd`, filtering out the behavior type and re-appending the
behavior that `find?` located restores the original list exactly. -/
theorem behaviorsEnd_filter_append {l : List BehaviorConfig} {t : String}
    (h : behaviorsEnd l t = true) {b0 : BehaviorConfig}
    (hf : l.find? (fun b => b.type == t) = some b0) :
    l.filter (fun b => b.type != t) ++ [b0] = l := by
  induction l with
  | nil => simp [behaviorsEnd] at h
  | cons b l ih =>
    cases l with
    | nil =>
      simp only [behaviorsEnd] at h
      simp only [List.find?, h, Option.some.injEq] at hf
      subst hf
      simp [List.filter_cons, bne, h]
    | cons b2 bs =>
      simp only [behaviorsEnd, Bool.and_eq_true] at h
      have hne : (b.type == t) = false := by
        cases hbt : b.type == t with
        | false => rfl
        | true => simp [bne, hbt] at h
      rw [List.find?_cons_of_neg _ (by simp [hne])] at hf
      have hrest := ih h.2 hf
      rw [List.filter_cons, if_pos h.1, List.cons_append, hrest]

/-! Congruence of the store actions appearing inside recorded closures with
respect to `StoreRel`. -/

theorem storeRel_addEntity (e : EntityConfig) {g g' : GameState}
    (h : StoreRel g g') :
    StoreRel (GameStore.addEntity e g) (GameStore.addEntity e g') :=
  ⟨h.1, h.2.1, h.2.2.1, h.2.2.2.append (List.Perm.refl [e])⟩

theorem storeRel_removeEntity (id : String) {g g' : GameState}
    (h : StoreRel g g') :
    StoreRel (GameStore.removeEntity id g) (GameStore.removeEntity id g') :=
  ⟨h.1, h.2.1, h.2.2.1, h.2.2.2.filter _⟩

theorem storeRel_updateEntity (id : String) (u : EntityUpdates) {g g' : GameState}
    (h : StoreRel g g') :
    StoreRel (GameStore.updateEntity id u g) (GameStore.updateEntity id u g') :=
  ⟨h.1, h.2.1, h.2.2.1, h.2.2.2.map _⟩

theorem storeRel_teleportPlayer (x y : Int) {g g' : GameState}
    (h : StoreRel g g') :
    StoreRel (GameStore.teleportPlayer x y g) (GameStore.teleportPlayer x y g') :=
  ⟨by simp [GameStore.teleportPlayer, h.1], h.2.1, h.2.2.1, h.2.2.2⟩

theorem storeRel_setPlayerAppearance (a : AppearanceUpdates) {g g' : GameState}
    (h : StoreRel g g') :
    StoreRel (GameStore.setPlayerAppearance a g) (GameStore.setPlayerAppearance a g') :=
  ⟨by simp [GameStore.setPlayerAppearance, h.1], h.2.1, h.2.2.1, h.2.2.2⟩

theorem storeRel_modifyHealth (amount : Int) {g g' : GameState}
    (h : StoreRel g g') :
    StoreRel (GameStore.modifyHealth amount g) (GameStore.modifyHealth amount g') :=
  ⟨by simp [GameStore.modifyHealth, h.1], h.2.1, h.2.2.1, h.2.2.2⟩

theorem storeRel_modifyPoints (amount : Int) {g g' : GameState}
    (h : StoreRel g g') :
    StoreRel (GameStore.modifyPoints amount g) (GameStore.modifyPoints amount g') :=
  ⟨by simp [GameStore.modifyPoints, h.1], h.2.1, h.2.2.1, h.2.2.2⟩

theorem storeRel_setTerrainColor (color : String) {g g' : GameState}
    (h : StoreRel g g') :
    StoreRel (GameStore.setTerrainColor color g) (GameStore.setTerrainColor color g') :=
  ⟨h.1, by simp [GameStore.setTerrainColor, h.2.1], h.2.2.1, h.2.2.2⟩

theorem storeRel_setSkyColor (color : String) {g g' : GameState}
    (h : StoreRel g g') :
    StoreRel (GameStore.setSkyColor color g) (GameStore.setSkyColor color g') :=
  ⟨h.1, by simp [GameStore.setSkyColor, h.2.1], h.2.2.1, h.2.2.2⟩

theorem storeRel_addBehavior (entityId : String) (b : BehaviorConfig)
    {g g' : GameState} (h : StoreRel g g') :
    StoreRel (GameStore.addBehavior entityId b g) (GameStore.addBehavior entityId b g') :=
  ⟨h.1, h.2.1, h.2.2.1, h.2.2.2.map _⟩

theorem storeRel_removeBehavior (entityId : String) (t : String)
    {g g' : GameState} (h : StoreRel g g') :
    StoreRel (GameStore.removeBehavior entityId t g) (GameStore.removeBehavior entityId t g') :=
  ⟨h.1, h.2.1, h.2.2.1, h.2.2.2.map _⟩

theorem storeRel_defineShape (name : String) (parts : List ShapePrimitive)
    {g g' : GameState} (h : StoreRel g g') :
    StoreRel (GameStore.defineShape name parts g) (GameStore.defineShape name parts g') :=
  ⟨h.1, h.2.1, by simp [GameStore.defineShape, h.2.2.1], h.2.2.2⟩

/-! Structural facts about `runCmd`. -/

/-- Only `throwErr` throws, and it leaves the sandbox and the store
untouched. -/
theorem runCmd_fail {c : Cmd} {sb : SandboxAPI} {g : GameState} {e : String}
    (h : (runCmd c sb g).1 = some e) : runCmd c sb g = (some e, sb, g) := by
  cases c <;> simp_all [runCmd]

/-- Each capability call appends exactly its `cmdChanges` to the sandbox's
change list (Changes are recorded strictly in call order, by push). -/
theorem runCmd_changes (c : Cmd) (sb : SandboxAPI) (g : GameState) :
    ((runCmd c sb g).2.1).changes = sb.changes ++ cmdChanges c sb g := by
  cases c with
  | createEntity o =>
    simp [runCmd, cmdChanges, SandboxAPI.createEntity]
  | updateEntity id u =>
    cases hfind : GameStore.getEntity id g <;>
      simp [runCmd, cmdChanges, SandboxAPI.updateEntity, hfind]
  | deleteEntity id =>
    cases hfind : GameStore.getEntity id g <;>
      simp [runCmd, cmdChanges, SandboxAPI.deleteEntity, hfind]
  | movePlayer dx dy =>
    simp [runCmd, cmdChanges, SandboxAPI.movePlayer]
  | teleportPlayer x y =>
    simp [runCmd, cmdChanges, SandboxAPI.teleportPlayer]
  | setPlayerAppearance a =>
    simp [runCmd, cmdChanges, SandboxAPI.setPlayerAppearance]
  | modifyHealth amount =>
    simp [runCmd, cmdChanges, SandboxAPI.modifyHealth]
  | modifyPoints amount =>
    cases hch : sb.cheatModeEnabled <;>
      simp [runCmd, cmdChanges, SandboxAPI.modifyPoints, SandboxAPI.say, hch]
  | enableCheats code =>
    by_cases hcode : code == "quackquack" <;>
      simp [runCmd, cmdChanges, SandboxAPI.enableCheats, SandboxAPI.say, hcode]
  | setTerrainColor color =>
    simp [runCmd, cmdChanges, SandboxAPI.setTerrainColor]
  | setSkyColor color =>
    simp [runCmd, cmdChanges, SandboxAPI.setSkyColor]
  | addBehavior entityId b =>
    cases hfind : GameStore.getEntity entityId g <;>
      simp [runCmd, cmdChanges, SandboxAPI.addBehavior, hfind]
  | removeBehavior entityId t =>
    cases hfind : GameStore.getEntity entityId g with
    | none => simp [runCmd, cmdChanges, SandboxAPI.removeBehavior, hfind]
    | some entity =>
      cases hfb : entity.behaviors.find? (fun b => b.type == t) <;>
        simp [runCmd, cmdChanges, SandboxAPI.removeBehavior, hfind, hfb]
  | defineShape name parts =>
    simp [runCmd, cmdChanges, SandboxAPI.defineShape]
  | say m =>
    simp [runCmd, cmdChanges, SandboxAPI.say]
  | throwErr m =>
    simp [runCmd, cmdChanges]

/-! Record-equality helpers. -/

theorem gameState_eq_of_player {g : GameState} {p : PlayerState}
    (h : p = g.player) : ({ g with player := p } : GameState) = g := by
  rw [h]

theorem playerState_eq_health {p : PlayerState} {v : Int}
    (h : v = p.health) : ({ p with health := v } : PlayerState) = p := by
  rw [h]

theorem playerState_eq_points {p : PlayerState} {v : Int}
    (h : v = p.points) : ({ p with points := v } : PlayerState) = p := by
  rw [h]

theorem gameState_eq_of_entities {g : GameState} {l : List EntityConfig}
    (h : l = g.entities) : ({ g with entities := l } : GameState) = g := by
  rw [h]

theorem gameState_eq_of_shapes {g : GameState}
    {m : List (String × List ShapePrimitive)}
    (h : m = g.customShapes) : ({ g with customShapes := m } : GameState) = g := by
  rw [h]

/-! Store-level reversal facts, one per Capability Surface pattern. -/

/-- Removing a freshly appended entity whose id was not present restores the
entity list exactly. -/
theorem removeEntity_addEntity (e : EntityConfig) (g : GameState)
    (hl : ∀ x ∈ g.entities, (x.id != e.id) = true) :
    GameStore.removeEntity e.id (GameStore.addEntity e g) = g := by
  simp only [GameStore.addEntity, GameStore.removeEntity]
  exact gameState_eq_of_entities
    (filter_append_singleton _ _ _ hl (by simp))

theorem getEntity_mem {id : String} {g : GameState} {e0 : EntityConfig}
    (hfind : GameStore.getEntity id g = some e0) : e0 ∈ g.entities := by
  have h : g.entities.find? (fun e => e.id == id) = some e0 := hfind
  exact List.mem_of_find?_eq_some h

theorem getEntity_id {id : String} {g : GameState} {e0 : EntityConfig}
    (hfind : GameStore.getEntity id g = some e0) : (e0.id == id) = true := by
  have h : g.entities.find? (fun e => e.id == id) = some e0 := hfind
  have h2 := List.find?_some h
  simpa using h2

/-- Re-applying the full snapshot of the unique entity matching `id` undoes an
id-preserving partial update exactly. -/
theorem updateEntity_revert {id : String} {g : GameState} {e0 : EntityConfig}
    (hfind : GameStore.getEntity id g = some e0)
    (hcount : g.entities.countP (fun e => e.id == id) = 1)
    {u : EntityUpdates} (hid : u.id = none) :
    GameStore.updateEntity id e0.toUpdates (GameStore.updateEntity id u g) = g := by
  have he0 := getEntity_mem hfind
  have hpe0 := getEntity_id hfind
  have hpoint : ∀ x ∈ g.entities,
      ((fun e => if e.id == id then e.applyUpdates e0.toUpdates else e) ∘
       (fun e => if e.id == id then e.applyUpdates u else e)) x = x := by
    intro x hx
    simp only [Function.comp]
    by_cases hxid : (x.id == id) = true
    · have hxe0 : x = e0 := eq_of_countP_eq_one hcount hx he0 hxid hpe0
      subst hxe0
      rw [if_pos hxid]
      have hid2 : ((x.applyUpdates u).id == id) = true := by
        simp only [EntityConfig.applyUpdates, hid, Option.getD_none]
        exact hxid
      rw [if_pos hid2, applyUpdates_toUpdates]
    · rw [if_neg hxid, if_neg hxid]
  simp only [GameStore.updateEntity, List.map_map]
  exact gameState_eq_of_entities (map_id_of_mem _ _ hpoint)

/-- Re-adding the copy of the unique entity matching `id` after removing it
restores the entity list up to permutation (the copy is appended at the end). -/
theorem addEntity_removeEntity_perm {id : String} {g : GameState} {e0 : EntityConfig}
    (hfind : GameStore.getEntity id g = some e0)
    (hcount : g.entities.countP (fun e => e.id == id) = 1) :
    StoreRel (GameStore.addEntity e0 (GameStore.removeEntity id g)) g := by
  refine ⟨rfl, rfl, rfl, ?_⟩
  exact perm_filter_not_append hcount (getEntity_mem hfind) (getEntity_id hfind)

/-- Removing the appended behavior of a type the entity did not have restores
its behavior list exactly. -/
theorem removeBehavior_addBehavior {entityId : String} {g : GameState}
    {e0 : EntityConfig} (hfind : GameStore.getEntity entityId g = some e0)
    (hcount : g.entities.countP (fun e => e.id == entityId) = 1)
    {b : BehaviorConfig} (hb : ∀ bb ∈ e0.behaviors, (bb.type != b.type) = true) :
    GameStore.removeBehavior entityId b.type (GameStore.addBehavior entityId b g) = g := by
  have he0 := getEntity_mem hfind
  have hpe0 := getEntity_id hfind
  have hpoint : ∀ x ∈ g.entities,
      ((fun e => if e.id == entityId then
          { e with behaviors := e.behaviors.filter (fun bb => bb.type != b.type) } else e) ∘
       (fun e => if e.id == entityId then
          { e with behaviors := e.behaviors ++ [b] } else e)) x = x := by
    intro x hx
    simp only [Function.comp]
    by_cases hxid : (x.id == entityId) = true
    · have hxe0 : x = e0 := eq_of_countP_eq_one hcount hx he0 hxid hpe0
      subst hxe0
      rw [if_pos hxid, if_pos hxid]
      have : (x.behaviors ++ [b]).filter (fun bb => bb.type != b.type) = x.behaviors :=
        filter_append_singleton _ _ _ hb (by simp)
      simp [this]
    · rw [if_neg hxid, if_neg hxid]
  simp only [GameStore.addBehavior, GameStore.removeBehavior, List.map_map]
  exact gameState_eq_of_entities (map_id_of_mem _ _ hpoint)

/-- Re-adding the removed behavior restores the behavior list exactly when the
removed type occurred exactly once, as the last behavior. -/
theorem addBehavior_removeBehavior {entityId : String} {g : GameState}
    {e0 : EntityConfig} (hfind : GameStore.getEntity entityId g = some e0)
    (hcount : g.entities.countP (fun e => e.id == entityId) = 1)
    {t : String} {b0 : BehaviorConfig}
    (hfb : e0.behaviors.find? (fun b => b.type == t) = some b0)
    (hend : behaviorsEnd e0.behaviors t = true) :
    GameStore.addBehavior entityId b0 (GameStore.removeBehavior entityId t g) = g := by
  have he0 := getEntity_mem hfind
  have hpe0 := getEntity_id hfind
  have hpoint : ∀ x ∈ g.entities,
      ((fun e => if e.id == entityId then
          { e with behaviors := e.behaviors ++ [b0] } else e) ∘
       (fun e => if e.id == entityId then
          { e with behaviors := e.behaviors.filter (fun b => b.type != t) } else e)) x = x := by
    intro x hx
    simp only [Function.comp]
    by_cases hxid : (x.id == entityId) = true
    · have hxe0 : x = e0 := eq_of_countP_eq_one hcount hx he0 hxid hpe0
      subst hxe0
      rw [if_pos hxid, if_pos hxid]
      have := behaviorsEnd_filter_append hend hfb
      simp [this]
    · rw [if_neg hxid, if_neg hxid]
  simp only [GameStore.removeBehavior, GameStore.addBehavior, List.map_map]
  exact gameState_eq_of_entities (map_id_of_mem _ _ hpoint)

/-- Re-defining a shape name with its previous parts restores the shape map
exactly when the name was already defined. -/
theorem defineShape_revert {name : String} {g : GameState}
    {ps : List ShapePrimitive} (hs : GameStore.getShape name g = some ps)
    (parts : List ShapePrimitive) :
    GameStore.defineShape name ps (GameStore.defineShape name parts g) = g := by
  simp only [GameStore.defineShape]
  exact gameState_eq_of_shapes
    ((mapSet_mapSet _ _ _ _).trans (mapSet_get_self hs))

/-! Clamp arithmetic for `modifyHealth` / `modifyPoints`. -/

theorem clamp_restore (maxH p amount : Int) (h0 : 0 ≤ p) (h1 : p ≤ maxH) :
    max 0 (min maxH (max 0 (min maxH (p + amount)) +
      -(max 0 (min maxH (p + amount)) - p))) = p := by
  have hx : max 0 (min maxH (p + amount)) +
      -(max 0 (min maxH (p + amount)) - p) = p := by ring
  rw [hx, min_eq_right h1, max_eq_right h0]

theorem clamp_replay (maxH p amount : Int) (h0 : 0 ≤ p) (h1 : p ≤ maxH) :
    max 0 (min maxH (p + (max 0 (min maxH (p + amount)) - p))) =
      max 0 (min maxH (p + amount)) := by
  have hx : p + (max 0 (min maxH (p + amount)) - p) =
      max 0 (min maxH (p + amount)) := by ring
  rw [hx]
  have h2 : (0:Int) ≤ max 0 (min maxH (p + amount)) := le_max_left 0 _
  have h3 : max 0 (min maxH (p + amount)) ≤ maxH :=
    max_le (h0.trans h1) (min_le_left _ _)
  rw [min_eq_right h3, max_eq_right h2]

theorem points_restore (p amount : Int) (h0 : 0 ≤ p) :
    max 0 (max 0 (p + amount) + -(max 0 (p + amount) - p)) = p := by
  have hx : max 0 (p + amount) + -(max 0 (p + amount) - p) = p := by ring
  rw [hx, max_eq_right h0]

theorem points_replay (p amount : Int) :
    max 0 (p + (max 0 (p + amount) - p)) = max 0 (p + amount) := by
  have hx : p + (max 0 (p + amount) - p) = max 0 (p + amount) := by ring
  rw [hx, max_eq_right (le_max_left 0 _)]

/-- Under its `cleanCmd` condition, the change a capability call records
compensates the call exactly (up to entity-list permutation for
`deleteEntity`): replaying the recorded reverses on the post-call store yields
the pre-call store. -/
theorem cmd_revert (c : Cmd) (sb : SandboxAPI) (g : GameState)
    (h : cleanCmd c sb g = true) :
    StoreRel (applyReverses (cmdChanges c sb g) (runCmd c sb g).2.2) g := by
  cases c with
  | createEntity o =>
    simp only [cleanCmd, List.all_eq_true] at h
    exact StoreRel.of_eq (removeEntity_addEntity _ g h)
  | updateEntity id u =>
    cases hfind : GameStore.getEntity id g with
    | none =>
      simp only [cmdChanges, runCmd, SandboxAPI.updateEntity, hfind]
      exact StoreRel.refl g
    | some e0 =>
      simp only [cleanCmd, hfind, Bool.and_eq_true] at h
      have hid : u.id = none := eq_of_beq h.1
      have hcount : g.entities.countP (fun e => e.id == id) = 1 := eq_of_beq h.2
      simp only [cmdChanges, runCmd, SandboxAPI.updateEntity, hfind]
      exact StoreRel.of_eq (updateEntity_revert hfind hcount hid)
  | deleteEntity id =>
    cases hfind : GameStore.getEntity id g with
    | none =>
      simp only [cmdChanges, runCmd, SandboxAPI.deleteEntity, hfind]
      exact StoreRel.refl g
    | some e0 =>
      simp only [cleanCmd, hfind] at h
      have hcount : g.entities.countP (fun e => e.id == id) = 1 := eq_of_beq h
      simp only [cmdChanges, runCmd, SandboxAPI.deleteEntity, hfind]
      exact addEntity_removeEntity_perm hfind hcount
  | movePlayer dx dy => exact StoreRel.refl g
  | teleportPlayer x y => exact StoreRel.refl g
  | setPlayerAppearance a => exact StoreRel.refl g
  | modifyHealth amount =>
    simp only [cleanCmd, Bool.and_eq_true, decide_eq_true_eq] at h
    apply StoreRel.of_eq
    show GameStore.modifyHealth
        (-((GameStore.modifyHealth amount g).player.health - g.player.health))
        (GameStore.modifyHealth amount g) = g
    simp only [GameStore.modifyHealth]
    apply gameState_eq_of_player
    apply playerState_eq_health
    exact clamp_restore _ _ amount h.1 h.2
  | modifyPoints amount =>
    obtain ⟨chs, msgs, cnt, last, cheat, created, nowv⟩ := sb
    cases cheat with
    | false => exact StoreRel.refl g
    | true =>
      simp only [cleanCmd, Bool.not_true, Bool.false_or, decide_eq_true_eq] at h
      apply StoreRel.of_eq
      show GameStore.modifyPoints
          (-((GameStore.modifyPoints amount g).player.points - g.player.points))
          (GameStore.modifyPoints amount g) = g
      simp only [GameStore.modifyPoints]
      apply gameState_eq_of_player
      apply playerState_eq_points
      exact points_restore _ amount h
  | enableCheats code => exact StoreRel.refl g
  | setTerrainColor color => exact StoreRel.refl g
  | setSkyColor color => exact StoreRel.refl g
  | addBehavior entityId b =>
    cases hfind : GameStore.getEntity entityId g with
    | none =>
      simp only [cmdChanges, runCmd, SandboxAPI.addBehavior, hfind]
      exact StoreRel.refl g
    | some e0 =>
      simp only [cleanCmd, hfind, Bool.and_eq_true, List.all_eq_true] at h
      have hcount : g.entities.countP (fun e => e.id == entityId) = 1 := eq_of_beq h.1
      simp only [cmdChanges, runCmd, SandboxAPI.addBehavior, hfind]
      exact StoreRel.of_eq (removeBehavior_addBehavior hfind hcount h.2)
  | removeBehavior entityId t =>
    cases hfind : GameStore.getEntity entityId g with
    | none =>
      simp only [cmdChanges, runCmd, SandboxAPI.removeBehavior, hfind]
      exact StoreRel.refl g
    | some e0 =>
      cases hfb : e0.behaviors.find? (fun b => b.type == t) with
      | none =>
        simp only [cmdChanges, runCmd, SandboxAPI.removeBehavior, hfind, hfb]
        exact StoreRel.refl g
      | some b0 =>
        simp only [cleanCmd, hfind, hfb, Bool.and_eq_true] at h
        have hcount : g.entities.countP (fun e => e.id == entityId) = 1 := eq_of_beq h.1
        simp only [cmdChanges, runCmd, SandboxAPI.removeBehavior, hfind, hfb]
        exact StoreRel.of_eq (addBehavior_removeBehavior hfind hcount hfb h.2)
  | defineShape name parts =>
    simp only [cleanCmd] at h
    rcases hs : GameStore.getShape name g with _ | ps
    · rw [hs] at h; simp at h
    · simp only [cmdChanges, hs]
      exact StoreRel.of_eq (defineShape_revert hs parts)
  | say m => exact StoreRel.refl g
  | throwErr m => exact StoreRel.refl g

/-- Every change a capability call records has `StoreRel`-congruent closures:
each closure is an append, a per-id `map`/`filter`, or a player/world/shape
update over captured values. -/
theorem cmd_good (c : Cmd) (sb : SandboxAPI) (g : GameState) :
    ∀ ch ∈ cmdChanges c sb g, GoodChange ch := by
  cases c with
  | createEntity o =>
    intro ch hch
    simp only [cmdChanges, List.mem_singleton] at hch
    subst hch
    exact ⟨fun _ _ h => storeRel_addEntity _ h, fun _ _ h => storeRel_removeEntity _ h⟩
  | updateEntity id u =>
    intro ch hch
    cases hfind : GameStore.getEntity id g with
    | none => simp [cmdChanges, hfind] at hch
    | some e0 =>
      simp only [cmdChanges, hfind, List.mem_singleton] at hch
      subst hch
      exact ⟨fun _ _ h => storeRel_updateEntity _ _ h,
             fun _ _ h => storeRel_updateEntity _ _ h⟩
  | deleteEntity id =>
    intro ch hch
    cases hfind : GameStore.getEntity id g with
    | none => simp [cmdChanges, hfind] at hch
    | some e0 =>
      simp only [cmdChanges, hfind, List.mem_singleton] at hch
      subst hch
      exact ⟨fun _ _ h => storeRel_removeEntity _ h,
             fun _ _ h => storeRel_addEntity _ h⟩
  | movePlayer dx dy =>
    intro ch hch
    simp only [cmdChanges, List.mem_singleton] at hch
    subst hch
    exact ⟨fun _ _ h => storeRel_teleportPlayer _ _ h,
           fun _ _ h => storeRel_teleportPlayer _ _ h⟩
  | teleportPlayer x y =>
    intro ch hch
    simp only [cmdChanges, List.mem_singleton] at hch
    subst hch
    exact ⟨fun _ _ h => storeRel_teleportPlayer _ _ h,
           fun _ _ h => storeRel_teleportPlayer _ _ h⟩
  | setPlayerAppearance a =>
    intro ch hch
    simp only [cmdChanges, List.mem_singleton] at hch
    subst hch
    exact ⟨fun _ _ h => storeRel_setPlayerAppearance _ h,
           fun _ _ h => storeRel_setPlayerAppearance _ h⟩
  | modifyHealth amount =>
    intro ch hch
    simp only [cmdChanges, List.mem_singleton] at hch
    subst hch
    exact ⟨fun _ _ h => storeRel_modifyHealth _ h,
           fun _ _ h => storeRel_modifyHealth _ h⟩
  | modifyPoints amount =>
    intro ch hch
    cases hch2 : sb.cheatModeEnabled with
    | false => simp [cmdChanges, hch2] at hch
    | true =>
      simp only [cmdChanges, hch2, Bool.not_true, Bool.false_eq_true, if_false,
        List.mem_singleton] at hch
      subst hch
      exact ⟨fun _ _ h => storeRel_modifyPoints _ h,
             fun _ _ h => storeRel_modifyPoints _ h⟩
  | enableCheats code =>
    intro ch hch
    simp [cmdChanges] at hch
  | setTerrainColor color =>
    intro ch hch
    simp only [cmdChanges, List.mem_singleton] at hch
    subst hch
    exact ⟨fun _ _ h => storeRel_setTerrainColor _ h,
           fun _ _ h => storeRel_setTerrainColor _ h⟩
  | setSkyColor color =>
    intro ch hch
    simp only [cmdChanges, List.mem_singleton] at hch
    subst hch
    exact ⟨fun _ _ h => storeRel_setSkyColor _ h,
           fun _ _ h => storeRel_setSkyColor _ h⟩
  | addBehavior entityId b =>
    intro ch hch
    cases hfind : GameStore.getEntity entityId g with
    | none => simp [cmdChanges, hfind] at hch
    | some e0 =>
      simp only [cmdChanges, hfind, List.mem_singleton] at hch
      subst hch
      exact ⟨fun _ _ h => storeRel_addBehavior _ _ h,
             fun _ _ h => storeRel_removeBehavior _ _ h⟩
  | removeBehavior entityId t =>
    intro ch hch
    cases hfind : GameStore.getEntity entityId g with
    | none => simp [cmdChanges, hfind] at hch
    | some e0 =>
      cases hfb : e0.behaviors.find? (fun b => b.type == t) with
      | none => simp [cmdChanges, hfind, hfb] at hch
      | some b0 =>
        simp only [cmdChanges, hfind, hfb, List.mem_singleton] at hch
        subst hch
        exact ⟨fun _ _ h => storeRel_removeBehavior _ _ h,
               fun _ _ h => storeRel_addBehavior _ _ h⟩
  | defineShape name parts =>
    intro ch hch
    simp only [cmdChanges, List.mem_singleton] at hch
    subst hch
    refine ⟨fun _ _ h => storeRel_defineShape _ _ h, fun g1 g2 h => ?_⟩
    cases GameStore.getShape name g with
    | none => exact storeRel_defineShape _ _ h
    | some ps => exact storeRel_defineShape _ _ h
  | say m =>
    intro ch hch
    simp [cmdChanges] at hch
  | throwErr m =>
    intro ch hch
    simp [cmdChanges] at hch

/-- Under its `cleanCmd` condition, replaying the recorded `forward` closures
on the pre-call store reproduces the call's effect exactly. -/
theorem cmd_forward (c : Cmd) (sb : SandboxAPI) (g : GameState)
    (h : cleanCmd c sb g = true) :
    applyForwards (cmdChanges c sb g) g = (runCmd c sb g).2.2 := by
  cases c with
  | createEntity o => rfl
  | updateEntity id u =>
    cases hfind : GameStore.getEntity id g <;>
      simp only [cmdChanges, runCmd, SandboxAPI.updateEntity, hfind] <;> rfl
  | deleteEntity id =>
    cases hfind : GameStore.getEntity id g <;>
      simp only [cmdChanges, runCmd, SandboxAPI.deleteEntity, hfind] <;> rfl
  | movePlayer dx dy => rfl
  | teleportPlayer x y => rfl
  | setPlayerAppearance a => rfl
  | modifyHealth amount =>
    simp only [cleanCmd, Bool.and_eq_true, decide_eq_true_eq] at h
    show GameStore.modifyHealth
        ((GameStore.modifyHealth amount g).player.health - g.player.health) g =
      GameStore.modifyHealth amount g
    simp only [GameStore.modifyHealth, GameState.mk.injEq, PlayerState.mk.injEq]
    exact ⟨⟨trivial, trivial, clamp_replay _ _ amount h.1 h.2, trivial, trivial, trivial⟩,
      trivial, trivial, trivial⟩
  | modifyPoints amount =>
    obtain ⟨chs, msgs, cnt, last, cheat, created, nowv⟩ := sb
    cases cheat with
    | false => rfl
    | true =>
      show GameStore.modifyPoints
          ((GameStore.modifyPoints amount g).player.points - g.player.points) g =
        GameStore.modifyPoints amount g
      simp only [GameStore.modifyPoints, GameState.mk.injEq, PlayerState.mk.injEq]
      exact ⟨⟨trivial, trivial, trivial, trivial, points_replay _ amount, trivial⟩,
        trivial, trivial, trivial⟩
  | enableCheats code => rfl
  | setTerrainColor color => rfl
  | setSkyColor color => rfl
  | addBehavior entityId b =>
    cases hfind : GameStore.getEntity entityId g <;>
      simp only [cmdChanges, runCmd, SandboxAPI.addBehavior, hfind] <;> rfl
  | removeBehavior entityId t =>
    cases hfind : GameStore.getEntity entityId g with
    | none =>
      simp only [cmdChanges, runCmd, SandboxAPI.removeBehavior, hfind]
      rfl
    | some e0 =>
      cases hfb : e0.behaviors.find? (fun b => b.type == t) <;>
        simp only [cmdChanges, runCmd, SandboxAPI.removeBehavior, hfind, hfb] <;> rfl
  | defineShape name parts => rfl
  | say m => rfl
  | throwErr m => rfl

/-- Main execution lemma.  For a clean run (every executed call satisfies its
`cleanCmd` condition): the final sandbox's change list is the initial one with
the run's changes appended in call order; every recorded change is
`StoreRel`-congruent; replaying the recorded reverses on the final store state
restores the initial store up to `StoreRel`; and, when the run did not throw,
replaying the recorded forwards on the initial store reproduces the final
store exactly. -/
theorem runScript_main (cs : List Cmd) : ∀ (sb : SandboxAPI) (g : GameState),
    cleanRun cs sb g = true →
    ((runScript cs sb g).2.1).changes = sb.changes ++ scriptChanges cs sb g ∧
    (∀ ch ∈ scriptChanges cs sb g, GoodChange ch) ∧
    StoreRel (applyReverses (scriptChanges cs sb g) (runScript cs sb g).2.2) g ∧
    ((runScript cs sb g).1 = none →
      applyForwards (scriptChanges cs sb g) g = (runScript cs sb g).2.2) := by
  induction cs with
  | nil =>
    intro sb g _
    refine ⟨by simp [runScript, scriptChanges], by simp [scriptChanges], ?_, ?_⟩
    · exact StoreRel.refl g
    · intro _; rfl
  | cons c cs ih =>
    intro sb g h
    rcases hr : runCmd c sb g with ⟨err, sb1, g1⟩
    have hchanges := runCmd_changes c sb g
    rw [hr] at hchanges
    cases err with
    | some e =>
      have hfail := runCmd_fail (by rw [hr] : (runCmd c sb g).1 = some e)
      rw [hr] at hfail
      obtain ⟨hsb1, hg1⟩ : sb1 = sb ∧ g1 = g := by
        have h1 := congrArg (fun p => p.2.1) hfail
        have h2 := congrArg (fun p => p.2.2) hfail
        exact ⟨h1, h2⟩
      simp only [cleanRun, hr, Bool.and_true] at h
      refine ⟨?_, ?_, ?_, ?_⟩
      · simp only [runScript, hr, scriptChanges]
        exact hchanges
      · simp only [scriptChanges, hr]
        exact cmd_good c sb g
      · simp only [runScript, hr, scriptChanges]
        have := cmd_revert c sb g h
        rw [hr] at this
        exact this
      · simp only [runScript, hr]
        intro hne
        cases hne
    | none =>
      simp only [cleanRun, hr, Bool.and_eq_true] at h
      obtain ⟨hclean, hrest⟩ := h
      have IH := ih sb1 g1 hrest
      have hrevert := cmd_revert c sb g hclean
      rw [hr] at hrevert
      have hforward := cmd_forward c sb g hclean
      rw [hr] at hforward
      have hgood := cmd_good c sb g
      refine ⟨?_, ?_, ?_, ?_⟩
      · simp only [runScript, hr, scriptChanges]
        rw [IH.1, hchanges, List.append_assoc]
      · simp only [scriptChanges, hr]
        intro ch hch
        rcases List.mem_append.mp hch with hmem | hmem
        · exact hgood ch hmem
        · exact IH.2.1 ch hmem
      · simp only [runScript, hr, scriptChanges]
        rw [applyReverses_append]
        exact ((applyReverses_congr hgood IH.2.2.1).trans hrevert)
      · simp only [runScript, hr, scriptChanges]
        intro hne
        rw [applyForwards_append, hforward]
        exact IH.2.2.2 hne

/-- Iterating `undo` one more time is one final `undo` after the others. -/
theorem undoTimes_succ' (n : Nat) : ∀ sys : System,
    undoTimes (n + 1) sys = (System.undo (undoTimes n sys)).2 := by
  induction n with
  | zero => intro sys; rfl
  | succ n ih =>
    intro sys
    show undoTimes (n + 1) (System.undo sys).2 = _
    rw [ih (System.undo sys).2]
    rfl

theorem getElem?_append_length {α : Type} (P Q : List α) (e : α) :
    (P ++ e :: Q)[P.length]? = some e := by
  induction P with
  | nil => simp
  | cons p P ih => simpa using ih

theorem set_append_length {α : Type} (P Q : List α) (e x : α) :
    (P ++ e :: Q).set P.length x = P ++ x :: Q := by
  induction P with
  | nil => rfl
  | cons p P ih => simp [List.set, ih]

/-- `undo` on a system whose cursor points at the entry `e`: it succeeds,
replays `e`'s not-yet-cleared rollback list, clears it, and decrements the
cursor. -/
theorem undo_at {sys : System} {P Q : List HistoryEntry} {e : HistoryEntry}
    (hent : sys.history.entries = P ++ e :: Q)
    (hcur : sys.history.currentIndex = (P.length : Int)) :
    System.undo sys =
      (true,
       { game := applyReverses e.result.rollbackChanges sys.game,
         history :=
           { entries := P ++ { e with result :=
               { e.result with rollbackChanges := [] } } :: Q,
             currentIndex := (P.length : Int) - 1 } }) := by
  have hneg : ¬ sys.history.currentIndex < 0 := by rw [hcur]; omega
  simp only [System.undo, hcur, hent, if_neg (hcur ▸ hneg), Int.toNat_natCast,
    getElem?_append_length, set_append_length]

/-- A successful execution commits: the store advances to the run's final
state, and the history gains the entry holding the run's result. -/
theorem commitScript_success {s : ScriptRun} {sys : System}
    {sbf : SandboxAPI} {gf : GameState}
    (hr : runScript s.code (SandboxAPI.new s.now) sys.game = (none, sbf, gf)) :
    commitScript s sys =
      { game := gf,
        history := sys.history.addEntry s.userInput
          { success := true, message := sbf.messages.getLast?, error := none,
            changes := sbf.changes, rollbackChanges := sbf.changes } s.now } := by
  simp [commitScript, executeSandboxedCode, hr]

/-- A failed execution does not commit: the history is untouched and the store
is left at the rolled-back state. -/
theorem commitScript_fail {s : ScriptRun} {sys : System}
    {err : String} {sbf : SandboxAPI} {gf : GameState}
    (hr : runScript s.code (SandboxAPI.new s.now) sys.game = (some err, sbf, gf)) :
    commitScript s sys =
      { game := applyReverses sbf.changes gf, history := sys.history } := by
  simp [commitScript, executeSandboxedCode, SandboxAPI.rollback, hr]

theorem take_append_singleton_length {α : Type} (T : List α) (e : α) :
    (T ++ [e]).take (T.length + 1) = T ++ [e] := by
  apply List.take_of_length_le
  simp

/-- Committing a nonempty cleanly-committable script sequence and then undoing
once per script leaves the entries at or below the original cursor untouched
(followed by the cleared committed entries), parks the cursor back where it
was, and restores the store up to `StoreRel`. -/
theorem commitMany_undo (rest : List ScriptRun) :
    ∀ (s : ScriptRun) (sys : System),
    cleanCommits (s :: rest) sys.game = true →
    ∃ cleared : List HistoryEntry,
      (undoTimes (s :: rest).length (commitMany (s :: rest) sys)).history.entries
        = sys.history.entries.take (sys.history.currentIndex + 1).toNat ++ cleared ∧
      (undoTimes (s :: rest).length (commitMany (s :: rest) sys)).history.currentIndex
        = ((sys.history.entries.take (sys.history.currentIndex + 1).toNat).length : Int) - 1 ∧
      StoreRel (undoTimes (s :: rest).length (commitMany (s :: rest) sys)).game sys.game := by
  induction rest with
  | nil =>
    intro s sys h
    simp only [cleanCommits, Bool.and_eq_true] at h
    obtain ⟨⟨hA, hB⟩, -⟩ := h
    rcases hr : runScript s.code (SandboxAPI.new s.now) sys.game with ⟨err, sbf, gf⟩
    rw [hr] at hB
    cases err with
    | some e => simp at hB
    | none =>
      have hmain := runScript_main s.code (SandboxAPI.new s.now) sys.game hA
      rw [hr] at hmain
      have hδ : sbf.changes = scriptChanges s.code (SandboxAPI.new s.now) sys.game := by
        simpa using hmain.1
      have hcommit := commitScript_success hr
      have hu := @undo_at
        { game := gf,
          history := sys.history.addEntry s.userInput
            { success := true, message := sbf.messages.getLast?, error := none,
              changes := sbf.changes, rollbackChanges := sbf.changes } s.now }
        (sys.history.entries.take (sys.history.currentIndex + 1).toNat)
        []
        { id := "history-" ++ toString s.now, timestamp := s.now,
          userInput := s.userInput,
          result := { success := true, message := sbf.messages.getLast?,
                      error := none, changes := sbf.changes,
                      rollbackChanges := sbf.changes } }
        (by simp [HistoryStore.addEntry]) (by simp [HistoryStore.addEntry])
      have hstep : undoTimes (s :: ([] : List ScriptRun)).length
          (commitMany (s :: []) sys) = (System.undo (commitScript s sys)).2 := rfl
      rw [hstep, hcommit, hu]
      refine ⟨[{ id := "history-" ++ toString s.now, timestamp := s.now,
                 userInput := s.userInput,
                 result := { success := true, message := sbf.messages.getLast?,
                             error := none, changes := sbf.changes,
                             rollbackChanges := [] } }], rfl, rfl, ?_⟩
      rw [hδ]
      exact hmain.2.2.1
  | cons r rs ih =>
    intro s sys h
    simp only [cleanCommits, Bool.and_eq_true] at h
    obtain ⟨⟨hA, hB⟩, hC⟩ := h
    rcases hr : runScript s.code (SandboxAPI.new s.now) sys.game with ⟨err, sbf, gf⟩
    rw [hr] at hB hC
    cases err with
    | some e => simp at hB
    | none =>
      have hmain := runScript_main s.code (SandboxAPI.new s.now) sys.game hA
      rw [hr] at hmain
      have hδ : sbf.changes = scriptChanges s.code (SandboxAPI.new s.now) sys.game := by
        simpa using hmain.1
      have hcommit := commitScript_success hr
      have hC' : cleanCommits (r :: rs) gf = true := by
        simp only [cleanCommits, Bool.and_eq_true]
        exact hC
      have IH := ih r
        { game := gf,
          history := sys.history.addEntry s.userInput
            { success := true, message := sbf.messages.getLast?, error := none,
              changes := sbf.changes, rollbackChanges := sbf.changes } s.now }
        hC'
      obtain ⟨cleared, hE, hI, hG⟩ := IH
      have hT1 : (((sys.history.addEntry s.userInput
            { success := true, message := sbf.messages.getLast?, error := none,
              changes := sbf.changes, rollbackChanges := sbf.changes } s.now)).entries.take
            (((sys.history.addEntry s.userInput
            { success := true, message := sbf.messages.getLast?, error := none,
              changes := sbf.changes, rollbackChanges := sbf.changes } s.now)).currentIndex + 1).toNat)
          = sys.history.entries.take (sys.history.currentIndex + 1).toNat ++
            [{ id := "history-" ++ toString s.now, timestamp := s.now,
               userInput := s.userInput,
               result := { success := true, message := sbf.messages.getLast?,
                           error := none, changes := sbf.changes,
                           rollbackChanges := sbf.changes } }] := by
        simp only [HistoryStore.addEntry]
        rw [show ((((sys.history.entries.take (sys.history.currentIndex + 1).toNat)).length : Int) + 1).toNat
            = ((sys.history.entries.take (sys.history.currentIndex + 1).toNat)).length + 1 by omega]
        exact take_append_singleton_length _ _
      rw [hT1] at hE hI
      have hstep : undoTimes (s :: r :: rs).length (commitMany (s :: r :: rs) sys)
          = (System.undo (undoTimes (r :: rs).length
              (commitMany (r :: rs) (commitScript s sys)))).2 := by
        show undoTimes ((r :: rs).length + 1) (commitMany (r :: rs) (commitScript s sys)) = _
        exact undoTimes_succ' (r :: rs).length _
      have hcur' : (undoTimes (r :: rs).length
            (commitMany (r :: rs) (commitScript s sys))).history.currentIndex
          = (((sys.history.entries.take (sys.history.currentIndex + 1).toNat)).length : Int) := by
        rw [hcommit, hI]
        simp
      have hent' : (undoTimes (r :: rs).length
            (commitMany (r :: rs) (commitScript s sys))).history.entries
          = sys.history.entries.take (sys.history.currentIndex + 1).toNat ++
            ({ id := "history-" ++ toString s.now, timestamp := s.now,
               userInput := s.userInput,
               result := { success := true, message := sbf.messages.getLast?,
                           error := none, changes := sbf.changes,
                           rollbackChanges := sbf.changes } } :: cleared) := by
        rw [hcommit, hE]
        simp
      have hu := undo_at hent' hcur'
      rw [hstep, hu]
      refine ⟨{ id := "history-" ++ toString s.now, timestamp := s.now,
                userInput := s.userInput,
                result := { success := true, message := sbf.messages.getLast?,
                            error := none, changes := sbf.changes,
                            rollbackChanges := [] } } :: cleared, rfl, rfl, ?_⟩
      have hGgf : StoreRel (undoTimes (r :: rs).length
          (commitMany (r :: rs) (commitScript s sys))).game gf := by
        rw [hcommit]
        exact hG
      have hcongr := @applyReverses_congr sbf.changes
        (by rw [hδ]; exact hmain.2.1) _ _ hGgf
      refine hcongr.trans ?_
      rw [hδ]
      exact hmain.2.2.1

/-- `redo` on a system whose cursor sits just below the entry `e`: it succeeds,
replays `e`'s recorded forwards in original order, and increments the cursor. -/
theorem redo_at {sys : System} {P Q : List HistoryEntry} {e : HistoryEntry}
    (hent : sys.history.entries = P ++ e :: Q)
    (hcur : sys.history.currentIndex = (P.length : Int) - 1) :
    System.redo sys =
      (true,
       { game := applyForwards e.result.changes sys.game,
         history := { sys.history with currentIndex := sys.history.currentIndex + 1 } }) := by
  have hneg : ¬ sys.history.currentIndex ≥ (((P ++ e :: Q).length : Nat) : Int) - 1 := by
    rw [hcur]
    simp only [List.length_append, List.length_cons]
    push_cast
    omega
  have hidx : (sys.history.currentIndex + 1).toNat = P.length := by
    rw [hcur]; omega
  simp only [System.redo, hent, if_neg hneg, hidx, getElem?_append_length]

/-- Changes are recorded strictly in call order: any run's final change list is
the initial list with the per-call change lists appended in call order. -/
theorem runScript_changes (cs : List Cmd) : ∀ (sb : SandboxAPI) (g : GameState),
    ((runScript cs sb g).2.1).changes = sb.changes ++ scriptChanges cs sb g := by
  induction cs with
  | nil => intro sb g; simp [runScript, scriptChanges]
  | cons c cs ih =>
    intro sb g
    rcases hr : runCmd c sb g with ⟨err, sb1, g1⟩
    have hch := runCmd_changes c sb g
    rw [hr] at hch
    cases err with
    | some e =>
      simp only [runScript, hr, scriptChanges]
      exact hch
    | none =>
      simp only [runScript, hr, scriptChanges]
      rw [ih sb1 g1, hch, List.append_assoc]

/-- No capability call ever clears the cheat flag. -/
theorem runCmd_cheat_mono (c : Cmd) (sb : SandboxAPI) (g : GameState)
    (h : sb.cheatModeEnabled = true) :
    ((runCmd c sb g).2.1).cheatModeEnabled = true := by
  cases c with
  | createEntity o => simp [runCmd, SandboxAPI.createEntity, h]
  | updateEntity id u =>
    cases hfind : GameStore.getEntity id g <;>
      simp [runCmd, SandboxAPI.updateEntity, hfind, h]
  | deleteEntity id =>
    cases hfind : GameStore.getEntity id g <;>
      simp [runCmd, SandboxAPI.deleteEntity, hfind, h]
  | movePlayer dx dy => simp [runCmd, SandboxAPI.movePlayer, h]
  | teleportPlayer x y => simp [runCmd, SandboxAPI.teleportPlayer, h]
  | setPlayerAppearance a => simp [runCmd, SandboxAPI.setPlayerAppearance, h]
  | modifyHealth amount => simp [runCmd, SandboxAPI.modifyHealth, h]
  | modifyPoints amount => simp [runCmd, SandboxAPI.modifyPoints, SandboxAPI.say, h]
  | enableCheats code =>
    by_cases hcode : code == "quackquack" <;>
      simp [runCmd, SandboxAPI.enableCheats, SandboxAPI.say, hcode, h]
  | setTerrainColor color => simp [runCmd, SandboxAPI.setTerrainColor, h]
  | setSkyColor color => simp [runCmd, SandboxAPI.setSkyColor, h]
  | addBehavior entityId b =>
    cases hfind : GameStore.getEntity entityId g <;>
      simp [runCmd, SandboxAPI.addBehavior, hfind, h]
  | removeBehavior entityId t =>
    cases hfind : GameStore.getEntity entityId g with
    | none => simp [runCmd, SandboxAPI.removeBehavior, hfind, h]
    | some e0 =>
      cases hfb : e0.behaviors.find? (fun b => b.type == t) <;>
        simp [runCmd, SandboxAPI.removeBehavior, hfind, hfb, h]
  | defineShape name parts => simp [runCmd, SandboxAPI.defineShape, h]
  | say m => simp [runCmd, SandboxAPI.say, h]
  | throwErr m => simp [runCmd, h]

/-- Once set during an execution, the cheat flag stays set for the rest of
that execution. -/
theorem runScript_cheat_mono (cs : List Cmd) : ∀ (sb : SandboxAPI) (g : GameState),
    sb.cheatModeEnabled = true →
    ((runScript cs sb g).2.1).cheatModeEnabled = true := by
  induction cs with
  | nil => intro sb g h; simpa [runScript] using h
  | cons c cs ih =>
    intro sb g h
    rcases hr : runCmd c sb g with ⟨err, sb1, g1⟩
    have hmono := runCmd_cheat_mono c sb g h
    rw [hr] at hmono
    cases err with
    | some e => simpa [runScript, hr] using hmono
    | none =>
      simp only [runScript, hr]
      exact ih sb1 g1 hmono

/-- A store whose cursor is at the last index rejects `redo`. -/
theorem redo_false_at_tail {sys : System}
    (h : sys.history.currentIndex = (sys.history.entries.length : Int) - 1) :
    (System.redo sys).1 = false := by
  simp only [System.redo, if_pos (ge_of_eq h)]

/-- `addEntry` always leaves the cursor at the new last index. -/
theorem addEntry_cursor_tail (st : HistoryStore) (userInput : String)
    (result : SandboxExecutionResult) (now : Nat) :
    (st.addEntry userInput result now).currentIndex
      = (((st.addEntry userInput result now).entries.length : Nat) : Int) - 1 := by
  simp only [HistoryStore.addEntry, List.length_append, List.length_cons,
    List.length_nil]
  push_cast
  ring

/-! ### Exact redo fidelity

After a clean undo, the store can deviate from the pre-script state only in
the placement of the entities the script deleted (`rollback` re-appends each
of them at the end of the entity array).  `RelD` tracks exactly this
deviation; the forwards replayed by a redo re-delete precisely those ids, so
the replay lands on the exact post-commit store. -/

theorem RelD_refl (ids : List String) (g : GameState) : RelD ids g g :=
  ⟨rfl, rfl, rfl, List.Perm.refl _, rfl⟩

theorem RelD_nil_eq {X g : GameState} (h : RelD [] X g) : X = g := by
  obtain ⟨h1, h2, h3, _, h5⟩ := h
  have h5' : X.entities.filter (fun _ => true) = g.entities.filter (fun _ => true) := h5
  rw [List.filter_true, List.filter_true] at h5'
  cases X; cases g
  simp_all

theorem filter_comm' {α : Type} (p q : α → Bool) (l : List α) :
    (l.filter p).filter q = (l.filter q).filter p := by
  induction l with
  | nil => rfl
  | cons a l ih =>
    cases hp : p a <;> cases hq : q a <;>
      simp [List.filter_cons, hp, hq, ih]

theorem filter_idem {α : Type} (p : α → Bool) (l : List α) :
    (l.filter p).filter p = l.filter p := by
  induction l with
  | nil => rfl
  | cons a l ih =>
    cases hp : p a <;> simp [List.filter_cons, hp, ih]

/-- Filtering out the ids `id :: tl` is filtering out `tl` and then dropping
the entities whose id is `id`. -/
theorem filter_contains_cons (id : String) (tl : List String)
    (l : List EntityConfig) :
    l.filter (fun e => !(id :: tl).contains e.id) =
      (l.filter (fun e => !tl.contains e.id)).filter (fun e => e.id != id) := by
  induction l with
  | nil => rfl
  | cons a l ih =>
    simp only [List.filter_cons, List.contains_cons, Bool.not_or, bne]
    cases h1 : a.id == id <;> cases h2 : tl.contains a.id <;>
      simp_all [List.filter_cons]

/-- A filter over a predicate on ids commutes with mapping an id-preserving
function. -/
theorem filter_contains_map (ids : List String)
    (f : EntityConfig → EntityConfig) (hf : ∀ e, (f e).id = e.id)
    (l : List EntityConfig) :
    (l.map f).filter (fun e => !ids.contains e.id) =
      (l.filter (fun e => !ids.contains e.id)).map f := by
  induction l with
  | nil => rfl
  | cons a l ih =>
    simp only [List.map_cons, List.filter_cons, hf a]
    cases h : ids.contains a.id <;> simp_all [List.filter_cons]

/-- Forward step of a per-id `map` operation: mapping an id-preserving
function preserves the permutation and the id-filtered agreement. -/
theorem map_replay (ids : List String) {f : EntityConfig → EntityConfig}
    {ents X : List EntityConfig} (hf : ∀ e, (f e).id = e.id)
    (hperm : X.Perm ents)
    (hfil : X.filter (fun e => !ids.contains e.id) =
      ents.filter (fun e => !ids.contains e.id)) :
    (X.map f).Perm (ents.map f) ∧
    (X.map f).filter (fun e => !ids.contains e.id) =
      (ents.map f).filter (fun e => !ids.contains e.id) := by
  refine ⟨hperm.map f, ?_⟩
  rw [filter_contains_map ids f hf X, hfil, filter_contains_map ids f hf ents]

/-- Unwinding a per-id `map` step: if `r` inverts `f` on the source entities
and both preserve ids, a state related to the mapped list maps back by `r` to
a state related to the source list. -/
theorem map_unwind (ids : List String) {f r : EntityConfig → EntityConfig}
    {ents X : List EntityConfig}
    (hf : ∀ e, (f e).id = e.id) (hr : ∀ e, (r e).id = e.id)
    (hrf : ∀ e ∈ ents, r (f e) = e)
    (hperm : X.Perm (ents.map f))
    (hfil : X.filter (fun e => !ids.contains e.id) =
      (ents.map f).filter (fun e => !ids.contains e.id)) :
    (X.map r).Perm ents ∧
    (X.map r).filter (fun e => !ids.contains e.id) =
      ents.filter (fun e => !ids.contains e.id) := by
  constructor
  · have h1 : (X.map r).Perm ((ents.map f).map r) := hperm.map r
    rw [List.map_map] at h1
    have h2 : ents.map (r ∘ f) = ents :=
      map_id_of_mem (r ∘ f) ents (fun x hx => hrf x hx)
    rw [h2] at h1
    exact h1
  · rw [filter_contains_map ids r hr X, hfil, filter_contains_map ids f hf ents,
      List.map_map]
    exact map_id_of_mem _ _ (fun x hx => hrf x (List.mem_filter.mp hx).1)

/-- A state agreeing with `g` outside the entity list is `g` with its entity
list replaced. -/
theorem gameState_eq_entities_repl {X g : GameState}
    (hp : X.player = g.player) (hw : X.world = g.world)
    (hs : X.customShapes = g.customShapes) :
    X = { g with entities := X.entities } := by
  cases X; cases g
  simp_all

/-- `delIds` concatenates across a cons. -/
theorem delIds_cons (c : Cmd) (cs : List Cmd) :
    delIds (c :: cs) = delIds [c] ++ delIds cs := by
  cases c <;> rfl

/-- Forward step of a redo replay.  From any state related to the true
prestate by `RelD` over the pending delete ids, replaying the call's recorded
forwards reaches a state related to the true poststate — consuming the call's
own delete id from the tracked set. -/
theorem cmd_replay (c : Cmd) (sb : SandboxAPI) (g : GameState) (tl : List String)
    {X : GameState} (h : cleanCmd c sb g = true)
    (hrel : RelD (delIds [c] ++ tl) X g) :
    RelD tl (applyForwards (cmdChanges c sb g) X) (runCmd c sb g).2.2 := by
  cases c with
  | createEntity o =>
    have hrel' : RelD tl X g := hrel
    obtain ⟨hp, hw, hs, hperm, hfil⟩ := hrel'
    refine ⟨hp, hw, hs, hperm.append (List.Perm.refl _), ?_⟩
    show (X.entities ++ _).filter (fun e => !tl.contains e.id) =
      (g.entities ++ _).filter (fun e => !tl.contains e.id)
    rw [List.filter_append, List.filter_append, hfil]
  | updateEntity id u =>
    have hrel' : RelD tl X g := hrel
    cases hfind : GameStore.getEntity id g with
    | none =>
      simp only [cmdChanges, runCmd, SandboxAPI.updateEntity, hfind]
      exact hrel'
    | some e0 =>
      simp only [cleanCmd, hfind, Bool.and_eq_true] at h
      have hid : u.id = none := eq_of_beq h.1
      obtain ⟨hp, hw, hs, hperm, hfil⟩ := hrel'
      have hfid : ∀ e : EntityConfig,
          ((fun e => if e.id == id then e.applyUpdates u else e) e).id = e.id := by
        intro e
        by_cases hx : (e.id == id) = true <;>
          simp [hx, EntityConfig.applyUpdates, hid]
      have hmr := map_replay tl hfid hperm hfil
      simp only [cmdChanges, runCmd, SandboxAPI.updateEntity, hfind,
        applyForwards_singleton]
      exact ⟨hp, hw, hs, hmr.1, hmr.2⟩
  | deleteEntity id =>
    have hrel' : RelD (id :: tl) X g := hrel
    obtain ⟨hp, hw, hs, hperm, hfil⟩ := hrel'
    cases hfind : GameStore.getEntity id g with
    | none =>
      have hfind' : g.entities.find? (fun e => e.id == id) = none := hfind
      have hnone : ∀ e ∈ g.entities, (e.id == id) = false := by
        intro e he
        have := List.find?_eq_none.mp hfind' e he
        simpa using this
      simp only [cmdChanges, runCmd, SandboxAPI.deleteEntity, hfind]
      refine ⟨hp, hw, hs, hperm, ?_⟩
      have hX : ∀ e ∈ X.entities, (e.id == id) = false :=
        fun e he => hnone e (hperm.mem_iff.mp he)
      have hcX : X.entities.filter (fun e => !(id :: tl).contains e.id) =
          X.entities.filter (fun e => !tl.contains e.id) :=
        List.filter_congr (fun e he => by
          rw [List.contains_cons, hX e he, Bool.false_or])
      have hcg : g.entities.filter (fun e => !(id :: tl).contains e.id) =
          g.entities.filter (fun e => !tl.contains e.id) :=
        List.filter_congr (fun e he => by
          rw [List.contains_cons, hnone e he, Bool.false_or])
      show X.entities.filter (fun e => !tl.contains e.id) =
        g.entities.filter (fun e => !tl.contains e.id)
      rw [← hcX, hfil, hcg]
    | some e0 =>
      simp only [cmdChanges, runCmd, SandboxAPI.deleteEntity, hfind,
        applyForwards_singleton]
      refine ⟨hp, hw, hs, hperm.filter _, ?_⟩
      show (X.entities.filter (fun e => e.id != id)).filter
          (fun e => !tl.contains e.id) =
        (g.entities.filter (fun e => e.id != id)).filter
          (fun e => !tl.contains e.id)
      calc (X.entities.filter (fun e => e.id != id)).filter
              (fun e => !tl.contains e.id)
          = (X.entities.filter (fun e => !tl.contains e.id)).filter
              (fun e => e.id != id) := filter_comm' _ _ _
        _ = X.entities.filter (fun e => !(id :: tl).contains e.id) :=
            (filter_contains_cons id tl X.entities).symm
        _ = g.entities.filter (fun e => !(id :: tl).contains e.id) := hfil
        _ = (g.entities.filter (fun e => !tl.contains e.id)).filter
              (fun e => e.id != id) := filter_contains_cons id tl g.entities
        _ = (g.entities.filter (fun e => e.id != id)).filter
              (fun e => !tl.contains e.id) := filter_comm' _ _ _
  | movePlayer dx dy =>
    have hrel' : RelD tl X g := hrel
    obtain ⟨hp, hw, hs, hperm, hfil⟩ := hrel'
    rw [gameState_eq_entities_repl hp hw hs]
    have hfw := cmd_forward (Cmd.movePlayer dx dy) sb g h
    have hfw1 := congrArg GameState.player hfw
    have hfw2 := congrArg GameState.world hfw
    have hfw3 := congrArg GameState.customShapes hfw
    exact ⟨hfw1, hfw2, hfw3, hperm, hfil⟩
  | teleportPlayer x y =>
    have hrel' : RelD tl X g := hrel
    obtain ⟨hp, hw, hs, hperm, hfil⟩ := hrel'
    rw [gameState_eq_entities_repl hp hw hs]
    have hfw := cmd_forward (Cmd.teleportPlayer x y) sb g h
    have hfw1 := congrArg GameState.player hfw
    have hfw2 := congrArg GameState.world hfw
    have hfw3 := congrArg GameState.customShapes hfw
    exact ⟨hfw1, hfw2, hfw3, hperm, hfil⟩
  | setPlayerAppearance a =>
    have hrel' : RelD tl X g := hrel
    obtain ⟨hp, hw, hs, hperm, hfil⟩ := hrel'
    rw [gameState_eq_entities_repl hp hw hs]
    have hfw := cmd_forward (Cmd.setPlayerAppearance a) sb g h
    have hfw1 := congrArg GameState.player hfw
    have hfw2 := congrArg GameState.world hfw
    have hfw3 := congrArg GameState.customShapes hfw
    exact ⟨hfw1, hfw2, hfw3, hperm, hfil⟩
  | modifyHealth amount =>
    have hrel' : RelD tl X g := hrel
    obtain ⟨hp, hw, hs, hperm, hfil⟩ := hrel'
    rw [gameState_eq_entities_repl hp hw hs]
    have hfw := cmd_forward (Cmd.modifyHealth amount) sb g h
    have hfw1 := congrArg GameState.player hfw
    have hfw2 := congrArg GameState.world hfw
    have hfw3 := congrArg GameState.customShapes hfw
    exact ⟨hfw1, hfw2, hfw3, hperm, hfil⟩
  | modifyPoints amount =>
    have hrel' : RelD tl X g := hrel
    obtain ⟨hp, hw, hs, hperm, hfil⟩ := hrel'
    obtain ⟨chs, msgs, cnt, last, cheat, created, nowv⟩ := sb
    cases cheat with
    | false => exact ⟨hp, hw, hs, hperm, hfil⟩
    | true =>
      rw [gameState_eq_entities_repl hp hw hs]
      have hfw := cmd_forward (Cmd.modifyPoints amount)
        ⟨chs, msgs, cnt, last, true, created, nowv⟩ g h
      have hfw1 := congrArg GameState.player hfw
      have hfw2 := congrArg GameState.world hfw
      have hfw3 := congrArg GameState.customShapes hfw
      exact ⟨hfw1, hfw2, hfw3, hperm, hfil⟩
  | enableCheats code => exact hrel
  | setTerrainColor color =>
    have hrel' : RelD tl X g := hrel
    obtain ⟨hp, hw, hs, hperm, hfil⟩ := hrel'
    rw [gameState_eq_entities_repl hp hw hs]
    have hfw := cmd_forward (Cmd.setTerrainColor color) sb g h
    have hfw1 := congrArg GameState.player hfw
    have hfw2 := congrArg GameState.world hfw
    have hfw3 := congrArg GameState.customShapes hfw
    exact ⟨hfw1, hfw2, hfw3, hperm, hfil⟩
  | setSkyColor color =>
    have hrel' : RelD tl X g := hrel
    obtain ⟨hp, hw, hs, hperm, hfil⟩ := hrel'
    rw [gameState_eq_entities_repl hp hw hs]
    have hfw := cmd_forward (Cmd.setSkyColor color) sb g h
    have hfw1 := congrArg GameState.player hfw
    have hfw2 := congrArg GameState.world hfw
    have hfw3 := congrArg GameState.customShapes hfw
    exact ⟨hfw1, hfw2, hfw3, hperm, hfil⟩
  | addBehavior entityId behavior =>
    have hrel' : RelD tl X g := hrel
    cases hfind : GameStore.getEntity entityId g with
    | none =>
      simp only [cmdChanges, runCmd, SandboxAPI.addBehavior, hfind]
      exact hrel'
    | some e0 =>
      obtain ⟨hp, hw, hs, hperm, hfil⟩ := hrel'
      have hfid : ∀ e : EntityConfig,
          ((fun e => if e.id == entityId then
              { e with behaviors := e.behaviors ++ [behavior] } else e) e).id
            = e.id := by
        intro e; by_cases hx : (e.id == entityId) = true <;> simp [hx]
      have hmr := map_replay tl hfid hperm hfil
      simp only [cmdChanges, runCmd, SandboxAPI.addBehavior, hfind,
        applyForwards_singleton]
      exact ⟨hp, hw, hs, hmr.1, hmr.2⟩
  | removeBehavior entityId behaviorType =>
    have hrel' : RelD tl X g := hrel
    cases hfind : GameStore.getEntity entityId g with
    | none =>
      simp only [cmdChanges, runCmd, SandboxAPI.removeBehavior, hfind]
      exact hrel'
    | some e0 =>
      cases hfb : e0.behaviors.find? (fun b => b.type == behaviorType) with
      | none =>
        simp only [cmdChanges, runCmd, SandboxAPI.removeBehavior, hfind, hfb]
        exact hrel'
      | some b0 =>
        obtain ⟨hp, hw, hs, hperm, hfil⟩ := hrel'
        have hfid : ∀ e : EntityConfig,
            ((fun e => if e.id == entityId then
                { e with behaviors :=
                    e.behaviors.filter (fun b => b.type != behaviorType) }
              else e) e).id = e.id := by
          intro e; by_cases hx : (e.id == entityId) = true <;> simp [hx]
        have hmr := map_replay tl hfid hperm hfil
        simp only [cmdChanges, runCmd, SandboxAPI.removeBehavior, hfind, hfb,
          applyForwards_singleton]
        exact ⟨hp, hw, hs, hmr.1, hmr.2⟩
  | defineShape name parts =>
    have hrel' : RelD tl X g := hrel
    obtain ⟨hp, hw, hs, hperm, hfil⟩ := hrel'
    rw [gameState_eq_entities_repl hp hw hs]
    have hfw := cmd_forward (Cmd.defineShape name parts) sb g h
    have hfw1 := congrArg GameState.player hfw
    have hfw2 := congrArg GameState.world hfw
    have hfw3 := congrArg GameState.customShapes hfw
    exact ⟨hfw1, hfw2, hfw3, hperm, hfil⟩
  | say m => exact hrel
  | throwErr m => exact hrel

/-- Reverse step of an undo.  From any state related to the true poststate by
`RelD` over the pending delete ids, replaying the call's recorded reverses
reaches a state related to the true prestate — adding the call's own delete id
to the tracked set (its re-added entity may sit at the wrong position). -/
theorem cmd_unwind (c : Cmd) (sb : SandboxAPI) (g : GameState) (tl : List String)
    {X : GameState} (h : cleanCmd c sb g = true)
    (hrel : RelD tl X (runCmd c sb g).2.2) :
    RelD (delIds [c] ++ tl) (applyReverses (cmdChanges c sb g) X) g := by
  cases c with
  | createEntity o =>
    simp only [cleanCmd, List.all_eq_true] at h
    obtain ⟨hp, hw, hs, hperm, hfil⟩ := hrel
    have hp2 : X.player = g.player := hp
    have hw2 : X.world = g.world := hw
    have hs2 : X.customShapes = g.customShapes := hs
    have hflt : ((runCmd (Cmd.createEntity o) sb g).2.2).entities.filter
        (fun e => e.id != sb.nextEntityId) = g.entities :=
      filter_append_singleton _ _ _ h (by simp)
    refine ⟨hp2, hw2, hs2, ?_, ?_⟩
    · show (X.entities.filter (fun e => e.id != sb.nextEntityId)).Perm g.entities
      have h1 := hperm.filter (fun e => e.id != sb.nextEntityId)
      rw [hflt] at h1
      exact h1
    · show (X.entities.filter (fun e => e.id != sb.nextEntityId)).filter
          (fun e => !tl.contains e.id) =
        g.entities.filter (fun e => !tl.contains e.id)
      calc (X.entities.filter (fun e => e.id != sb.nextEntityId)).filter
              (fun e => !tl.contains e.id)
          = (X.entities.filter (fun e => !tl.contains e.id)).filter
              (fun e => e.id != sb.nextEntityId) := filter_comm' _ _ _
        _ = (((runCmd (Cmd.createEntity o) sb g).2.2).entities.filter
              (fun e => !tl.contains e.id)).filter
              (fun e => e.id != sb.nextEntityId) := by rw [hfil]
        _ = (((runCmd (Cmd.createEntity o) sb g).2.2).entities.filter
              (fun e => e.id != sb.nextEntityId)).filter
              (fun e => !tl.contains e.id) := filter_comm' _ _ _
        _ = g.entities.filter (fun e => !tl.contains e.id) := by rw [hflt]
  | updateEntity id u =>
    cases hfind : GameStore.getEntity id g with
    | none =>
      simp only [cmdChanges, runCmd, SandboxAPI.updateEntity, hfind] at hrel ⊢
      exact hrel
    | some e0 =>
      simp only [cleanCmd, hfind, Bool.and_eq_true] at h
      have hid : u.id = none := eq_of_beq h.1
      have hcount : g.entities.countP (fun e => e.id == id) = 1 := eq_of_beq h.2
      have he0 := getEntity_mem hfind
      have hpe0 := getEntity_id hfind
      simp only [cmdChanges, runCmd, SandboxAPI.updateEntity, hfind] at hrel ⊢
      obtain ⟨hp, hw, hs, hperm, hfil⟩ := hrel
      have hp2 : X.player = g.player := hp
      have hw2 : X.world = g.world := hw
      have hs2 : X.customShapes = g.customShapes := hs
      have hperm2 : X.entities.Perm
          (g.entities.map (fun e => if e.id == id then e.applyUpdates u else e)) :=
        hperm
      have hfil2 : X.entities.filter (fun e => !tl.contains e.id) =
          (g.entities.map
            (fun e => if e.id == id then e.applyUpdates u else e)).filter
            (fun e => !tl.contains e.id) := hfil
      have hfid : ∀ e : EntityConfig,
          ((fun e => if e.id == id then e.applyUpdates u else e) e).id = e.id := by
        intro e
        by_cases hx : (e.id == id) = true <;>
          simp [hx, EntityConfig.applyUpdates, hid]
      have he0id : e0.id = id := eq_of_beq hpe0
      have hrid : ∀ e : EntityConfig,
          ((fun e => if e.id == id then e.applyUpdates e0.toUpdates else e) e).id
            = e.id := by
        intro e
        by_cases hx : (e.id == id) = true
        · have hx' : e.id = id := eq_of_beq hx
          simp [hx, EntityConfig.toUpdates, EntityConfig.applyUpdates, he0id, hx']
        · simp [hx]
      have hpoint : ∀ x ∈ g.entities,
          (fun e => if e.id == id then e.applyUpdates e0.toUpdates else e)
            ((fun e => if e.id == id then e.applyUpdates u else e) x) = x := by
        intro x hx
        by_cases hxid : (x.id == id) = true
        · have hxe0 : x = e0 := eq_of_countP_eq_one hcount hx he0 hxid hpe0
          subst hxe0
          have hid2 : ((x.applyUpdates u).id == id) = true := by
            simp only [EntityConfig.applyUpdates, hid, Option.getD_none]
            exact hxid
          simp only [if_pos hxid, if_pos hid2, applyUpdates_toUpdates]
        · simp only [if_neg hxid]
      have hmu := map_unwind tl hfid hrid hpoint hperm2 hfil2
      exact ⟨hp2, hw2, hs2, hmu.1, hmu.2⟩
  | deleteEntity id =>
    cases hfind : GameStore.getEntity id g with
    | none =>
      simp only [cmdChanges, runCmd, SandboxAPI.deleteEntity, hfind] at hrel ⊢
      obtain ⟨hp, hw, hs, hperm, hfil⟩ := hrel
      refine ⟨hp, hw, hs, hperm, ?_⟩
      show X.entities.filter (fun e => !(id :: tl).contains e.id) =
        g.entities.filter (fun e => !(id :: tl).contains e.id)
      rw [filter_contains_cons, filter_contains_cons, hfil]
    | some e0 =>
      simp only [cleanCmd, hfind] at h
      have hcount : g.entities.countP (fun e => e.id == id) = 1 := eq_of_beq h
      have he0 := getEntity_mem hfind
      have hpe0 := getEntity_id hfind
      simp only [cmdChanges, runCmd, SandboxAPI.deleteEntity, hfind] at hrel ⊢
      obtain ⟨hp, hw, hs, hperm, hfil⟩ := hrel
      have hp2 : X.player = g.player := hp
      have hw2 : X.world = g.world := hw
      have hs2 : X.customShapes = g.customShapes := hs
      have hperm2 : X.entities.Perm
          (g.entities.filter (fun e => e.id != id)) := hperm
      have hfil2 : X.entities.filter (fun e => !tl.contains e.id) =
          (g.entities.filter (fun e => e.id != id)).filter
            (fun e => !tl.contains e.id) := hfil
      refine ⟨hp2, hw2, hs2, ?_, ?_⟩
      · show (X.entities ++ [e0]).Perm g.entities
        have h1 : (X.entities ++ [e0]).Perm
            (g.entities.filter (fun e => e.id != id) ++ [e0]) :=
          hperm2.append (List.Perm.refl _)
        have h2 : (g.entities.filter (fun e => e.id != id) ++ [e0]).Perm
            g.entities := perm_filter_not_append hcount he0 hpe0
        exact h1.trans h2
      · show (X.entities ++ [e0]).filter (fun e => !(id :: tl).contains e.id) =
          g.entities.filter (fun e => !(id :: tl).contains e.id)
        have heid : e0.id = id := eq_of_beq hpe0
        have hone : ([e0].filter (fun e => !(id :: tl).contains e.id)) = [] := by
          simp [heid]
        rw [List.filter_append, hone, List.append_nil]
        calc X.entities.filter (fun e => !(id :: tl).contains e.id)
            = (X.entities.filter (fun e => !tl.contains e.id)).filter
                (fun e => e.id != id) := filter_contains_cons id tl X.entities
          _ = ((g.entities.filter (fun e => e.id != id)).filter
                (fun e => !tl.contains e.id)).filter (fun e => e.id != id) := by
              rw [hfil2]
          _ = ((g.entities.filter (fun e => !tl.contains e.id)).filter
                (fun e => e.id != id)).filter (fun e => e.id != id) := by
              rw [filter_comm' (fun e => e.id != id)
                (fun e => !tl.contains e.id) g.entities]
          _ = (g.entities.filter (fun e => !tl.contains e.id)).filter
                (fun e => e.id != id) := filter_idem _ _
          _ = g.entities.filter (fun e => !(id :: tl).contains e.id) :=
              (filter_contains_cons id tl g.entities).symm
  | movePlayer dx dy =>
    obtain ⟨hp, hw, hs, hperm, hfil⟩ := hrel
    have hperm2 : X.entities.Perm g.entities := hperm
    have hfil2 : X.entities.filter (fun e => !tl.contains e.id) =
        g.entities.filter (fun e => !tl.contains e.id) := hfil
    rw [gameState_eq_entities_repl hp hw hs]
    exact ⟨rfl, rfl, rfl, hperm2, hfil2⟩
  | teleportPlayer x y =>
    obtain ⟨hp, hw, hs, hperm, hfil⟩ := hrel
    have hperm2 : X.entities.Perm g.entities := hperm
    have hfil2 : X.entities.filter (fun e => !tl.contains e.id) =
        g.entities.filter (fun e => !tl.contains e.id) := hfil
    rw [gameState_eq_entities_repl hp hw hs]
    exact ⟨rfl, rfl, rfl, hperm2, hfil2⟩
  | setPlayerAppearance a =>
    obtain ⟨hp, hw, hs, hperm, hfil⟩ := hrel
    have hperm2 : X.entities.Perm g.entities := hperm
    have hfil2 : X.entities.filter (fun e => !tl.contains e.id) =
        g.entities.filter (fun e => !tl.contains e.id) := hfil
    rw [gameState_eq_entities_repl hp hw hs]
    exact ⟨rfl, rfl, rfl, hperm2, hfil2⟩
  | modifyHealth amount =>
    simp only [cleanCmd, Bool.and_eq_true, decide_eq_true_eq] at h
    obtain ⟨hp, hw, hs, hperm, hfil⟩ := hrel
    have hperm2 : X.entities.Perm g.entities := hperm
    have hfil2 : X.entities.filter (fun e => !tl.contains e.id) =
        g.entities.filter (fun e => !tl.contains e.id) := hfil
    have hrev : applyReverses (cmdChanges (Cmd.modifyHealth amount) sb g)
        (runCmd (Cmd.modifyHealth amount) sb g).2.2 = g := by
      show GameStore.modifyHealth
          (-((GameStore.modifyHealth amount g).player.health - g.player.health))
          (GameStore.modifyHealth amount g) = g
      simp only [GameStore.modifyHealth]
      apply gameState_eq_of_player
      apply playerState_eq_health
      exact clamp_restore _ _ amount h.1 h.2
    have hr1 := congrArg GameState.player hrev
    have hr2 := congrArg GameState.world hrev
    have hr3 := congrArg GameState.customShapes hrev
    rw [gameState_eq_entities_repl hp hw hs]
    exact ⟨hr1, hr2, hr3, hperm2, hfil2⟩
  | modifyPoints amount =>
    obtain ⟨chs, msgs, cnt, last, cheat, created, nowv⟩ := sb
    cases cheat with
    | false => exact hrel
    | true =>
      simp only [cleanCmd, Bool.not_true, Bool.false_or, decide_eq_true_eq] at h
      obtain ⟨hp, hw, hs, hperm, hfil⟩ := hrel
      have hperm2 : X.entities.Perm g.entities := hperm
      have hfil2 : X.entities.filter (fun e => !tl.contains e.id) =
          g.entities.filter (fun e => !tl.contains e.id) := hfil
      have hrev : applyReverses (cmdChanges (Cmd.modifyPoints amount)
          ⟨chs, msgs, cnt, last, true, created, nowv⟩ g)
          (runCmd (Cmd.modifyPoints amount)
            ⟨chs, msgs, cnt, last, true, created, nowv⟩ g).2.2 = g := by
        show GameStore.modifyPoints
            (-((GameStore.modifyPoints amount g).player.points - g.player.points))
            (GameStore.modifyPoints amount g) = g
        simp only [GameStore.modifyPoints]
        apply gameState_eq_of_player
        apply playerState_eq_points
        exact points_restore _ amount h
      have hr1 := congrArg GameState.player hrev
      have hr2 := congrArg GameState.world hrev
      have hr3 := congrArg GameState.customShapes hrev
      rw [gameState_eq_entities_repl hp hw hs]
      exact ⟨hr1, hr2, hr3, hperm2, hfil2⟩
  | enableCheats code => exact hrel
  | setTerrainColor color =>
    obtain ⟨hp, hw, hs, hperm, hfil⟩ := hrel
    have hperm2 : X.entities.Perm g.entities := hperm
    have hfil2 : X.entities.filter (fun e => !tl.contains e.id) =
        g.entities.filter (fun e => !tl.contains e.id) := hfil
    rw [gameState_eq_entities_repl hp hw hs]
    exact ⟨rfl, rfl, rfl, hperm2, hfil2⟩
  | setSkyColor color =>
    obtain ⟨hp, hw, hs, hperm, hfil⟩ := hrel
    have hperm2 : X.entities.Perm g.entities := hperm
    have hfil2 : X.entities.filter (fun e => !tl.contains e.id) =
        g.entities.filter (fun e => !tl.contains e.id) := hfil
    rw [gameState_eq_entities_repl hp hw hs]
    exact ⟨rfl, rfl, rfl, hperm2, hfil2⟩
  | addBehavior entityId behavior =>
    cases hfind : GameStore.getEntity entityId g with
    | none =>
      simp only [cmdChanges, runCmd, SandboxAPI.addBehavior, hfind] at hrel ⊢
      exact hrel
    | some e0 =>
      simp only [cleanCmd, hfind, Bool.and_eq_true, List.all_eq_true] at h
      have hcount : g.entities.countP (fun e => e.id == entityId) = 1 :=
        eq_of_beq h.1
      have he0 := getEntity_mem hfind
      have hpe0 := getEntity_id hfind
      simp only [cmdChanges, runCmd, SandboxAPI.addBehavior, hfind] at hrel ⊢
      obtain ⟨hp, hw, hs, hperm, hfil⟩ := hrel
      have hp2 : X.player = g.player := hp
      have hw2 : X.world = g.world := hw
      have hs2 : X.customShapes = g.customShapes := hs
      have hperm2 : X.entities.Perm
          (g.entities.map (fun e => if e.id == entityId then
            { e with behaviors := e.behaviors ++ [behavior] } else e)) := hperm
      have hfil2 : X.entities.filter (fun e => !tl.contains e.id) =
          (g.entities.map (fun e => if e.id == entityId then
            { e with behaviors := e.behaviors ++ [behavior] } else e)).filter
            (fun e => !tl.contains e.id) := hfil
      have hfid : ∀ e : EntityConfig,
          ((fun e => if e.id == entityId then
            { e with behaviors := e.behaviors ++ [behavior] } else e) e).id
            = e.id := by
        intro e; by_cases hx : (e.id == entityId) = true <;> simp [hx]
      have hrid : ∀ e : EntityConfig,
          ((fun e => if e.id == entityId then
            { e with behaviors :=
                e.behaviors.filter (fun b => b.type != behavior.type) } else e) e).id = e.id := by
        intro e; by_cases hx : (e.id == entityId) = true <;> simp [hx]
      have hpoint : ∀ x ∈ g.entities,
          (fun e => if e.id == entityId then
            { e with behaviors :=
                e.behaviors.filter (fun b => b.type != behavior.type) } else e)
            ((fun e => if e.id == entityId then
              { e with behaviors := e.behaviors ++ [behavior] } else e) x) = x := by
        intro x hx
        by_cases hxid : (x.id == entityId) = true
        · have hxe0 : x = e0 := eq_of_countP_eq_one hcount hx he0 hxid hpe0
          subst hxe0
          have hflt : (x.behaviors ++ [behavior]).filter
              (fun b => b.type != behavior.type) = x.behaviors :=
            filter_append_singleton _ _ _ h.2 (by simp)
          simp [hxid, hflt]
        · simp [hxid]
      have hmu := map_unwind tl hfid hrid hpoint hperm2 hfil2
      exact ⟨hp2, hw2, hs2, hmu.1, hmu.2⟩
  | removeBehavior entityId behaviorType =>
    cases hfind : GameStore.getEntity entityId g with
    | none =>
      simp only [cmdChanges, runCmd, SandboxAPI.removeBehavior, hfind] at hrel ⊢
      exact hrel
    | some e0 =>
      cases hfb : e0.behaviors.find? (fun b => b.type == behaviorType) with
      | none =>
        simp only [cmdChanges, runCmd, SandboxAPI.removeBehavior, hfind, hfb]
          at hrel ⊢
        exact hrel
      | some b0 =>
        simp only [cleanCmd, hfind, hfb, Bool.and_eq_true] at h
        have hcount : g.entities.countP (fun e => e.id == entityId) = 1 :=
          eq_of_beq h.1
        have he0 := getEntity_mem hfind
        have hpe0 := getEntity_id hfind
        simp only [cmdChanges, runCmd, SandboxAPI.removeBehavior, hfind, hfb]
          at hrel ⊢
        obtain ⟨hp, hw, hs, hperm, hfil⟩ := hrel
        have hp2 : X.player = g.player := hp
        have hw2 : X.world = g.world := hw
        have hs2 : X.customShapes = g.customShapes := hs
        have hperm2 : X.entities.Perm
            (g.entities.map (fun e => if e.id == entityId then
              { e with behaviors :=
                  e.behaviors.filter (fun b => b.type != behaviorType) } else e)) := hperm
        have hfil2 : X.entities.filter (fun e => !tl.contains e.id) =
            (g.entities.map (fun e => if e.id == entityId then
              { e with behaviors :=
                  e.behaviors.filter (fun b => b.type != behaviorType) } else e)).filter
              (fun e => !tl.contains e.id) := hfil
        have hfid : ∀ e : EntityConfig,
            ((fun e => if e.id == entityId then
              { e with behaviors :=
                  e.behaviors.filter (fun b => b.type != behaviorType) } else e) e).id = e.id := by
          intro e; by_cases hx : (e.id == entityId) = true <;> simp [hx]
        have hrid : ∀ e : EntityConfig,
            ((fun e => if e.id == entityId then
              { e with behaviors := e.behaviors ++ [b0] } else e) e).id = e.id := by
          intro e; by_cases hx : (e.id == entityId) = true <;> simp [hx]
        have hpoint : ∀ x ∈ g.entities,
            (fun e => if e.id == entityId then
              { e with behaviors := e.behaviors ++ [b0] } else e)
              ((fun e => if e.id == entityId then
                { e with behaviors :=
                    e.behaviors.filter (fun b => b.type != behaviorType) } else e) x) = x := by
          intro x hx
          by_cases hxid : (x.id == entityId) = true
          · have hxe0 : x = e0 := eq_of_countP_eq_one hcount hx he0 hxid hpe0
            subst hxe0
            have hflt := behaviorsEnd_filter_append h.2 hfb
            simp [hxid, hflt]
          · simp [hxid]
        have hmu := map_unwind tl hfid hrid hpoint hperm2 hfil2
        exact ⟨hp2, hw2, hs2, hmu.1, hmu.2⟩
  | defineShape name parts =>
    simp only [cleanCmd] at h
    rcases hsp : GameStore.getShape name g with _ | ps
    · rw [hsp] at h; simp at h
    · obtain ⟨hp, hw, hs, hperm, hfil⟩ := hrel
      have hperm2 : X.entities.Perm g.entities := hperm
      have hfil2 : X.entities.filter (fun e => !tl.contains e.id) =
          g.entities.filter (fun e => !tl.contains e.id) := hfil
      simp only [cmdChanges, hsp]
      have hrev : GameStore.defineShape name ps
          (GameStore.defineShape name parts g) = g := defineShape_revert hsp parts
      have hr3 := congrArg GameState.customShapes hrev
      rw [gameState_eq_entities_repl hp hw hs]
      exact ⟨rfl, rfl, hr3, hperm2, hfil2⟩
  | say m => exact hrel
  | throwErr m => exact hrel

/-- Unwinding a clean, non-throwing run: replaying the recorded reverses on
any state `RelD`-related to the final store yields a state `RelD`-related to
the initial store, with the run's delete ids added to the tracked set. -/
theorem runScript_unwind (cs : List Cmd) : ∀ (sb : SandboxAPI) (g : GameState)
    (tl : List String) (X : GameState),
    cleanRun cs sb g = true →
    (runScript cs sb g).1 = none →
    RelD tl X (runScript cs sb g).2.2 →
    RelD (delIds cs ++ tl) (applyReverses (scriptChanges cs sb g) X) g := by
  induction cs with
  | nil =>
    intro sb g tl X _ _ hrel
    exact hrel
  | cons c cs ih =>
    intro sb g tl X h hok hrel
    rcases hr : runCmd c sb g with ⟨err, sb1, g1⟩
    cases err with
    | some e => simp [runScript, hr] at hok
    | none =>
      simp only [cleanRun, hr, Bool.and_eq_true] at h
      simp only [runScript, hr] at hok hrel
      simp only [scriptChanges, hr]
      rw [delIds_cons, List.append_assoc, applyReverses_append]
      have h1 := ih sb1 g1 tl X h.2 hok hrel
      have h2 := cmd_unwind c sb g (delIds cs ++ tl) h.1 (by rw [hr]; exact h1)
      exact h2

/-- Replaying a clean, non-throwing run's recorded forwards from any state
`RelD`-related (over the run's delete ids) to the true initial store yields a
state `RelD`-related to the true final store. -/
theorem runScript_replay (cs : List Cmd) : ∀ (sb : SandboxAPI) (g : GameState)
    (tl : List String) (X : GameState),
    cleanRun cs sb g = true →
    (runScript cs sb g).1 = none →
    RelD (delIds cs ++ tl) X g →
    RelD tl (applyForwards (scriptChanges cs sb g) X) (runScript cs sb g).2.2 := by
  induction cs with
  | nil =>
    intro sb g tl X _ _ hrel
    exact hrel
  | cons c cs ih =>
    intro sb g tl X h hok hrel
    rcases hr : runCmd c sb g with ⟨err, sb1, g1⟩
    cases err with
    | some e => simp [runScript, hr] at hok
    | none =>
      simp only [cleanRun, hr, Bool.and_eq_true] at h
      simp only [runScript, hr] at hok ⊢
      simp only [scriptChanges, hr]
      rw [applyForwards_append]
      rw [delIds_cons, List.append_assoc] at hrel
      have h1 := cmd_replay c sb g (delIds cs ++ tl) h.1 hrel
      rw [hr] at h1
      exact ih sb1 g1 tl _ h.2 hok h1

/-- Exact redo fidelity for a clean, non-throwing run: replaying the recorded
forwards on the store produced by replaying the recorded reverses on the final
store reproduces the final store exactly — entity order included. -/
theorem redo_exact (cs : List Cmd) (sb : SandboxAPI) (g : GameState)
    (hclean : cleanRun cs sb g = true)
    (hok : (runScript cs sb g).1 = none) :
    applyForwards (scriptChanges cs sb g)
      (applyReverses (scriptChanges cs sb g) (runScript cs sb g).2.2) =
    (runScript cs sb g).2.2 := by
  have h1 := runScript_unwind cs sb g [] (runScript cs sb g).2.2 hclean hok
    (RelD_refl [] _)
  have h2 := runScript_replay cs sb g [] _ hclean hok h1
  exact RelD_nil_eq h2

/-! ## Claims -/

/-- C2: the executor compiles the script as a function parameterized exactly by
the allow-list names in the allow-list's order (`Object.keys(safeGlobals)`),
invokes it with the corresponding values (`Object.values(safeGlobals)`), and
the symbol table binds each dangerous ambient name — window, document, fetch,
localStorage, sessionStorage, XMLHttpRequest, WebSocket, eval, Function — to
undefined; each dangerous name is among the parameters, so inside the compiled
function it shadows the ambient host capability of the same name and resolves
to undefined. -/
theorem C2_executor_symbol_table :
    globalNames =
      ["game", "Math", "parseInt", "parseFloat", "JSON", "Array", "Object",
       "String", "Number", "Boolean", "Date", "console", "window", "document",
       "fetch", "localStorage", "sessionStorage", "XMLHttpRequest", "WebSocket",
       "eval", "Function"] ∧
    globalNames.zip globalValues = safeGlobals ∧
    (∀ name ∈ dangerousGlobals, name ∈ globalNames) ∧
    (∀ name ∈ dangerousGlobals,
      scriptScopeLookup name = some SafeValue.undefinedValue) := by
  decide

/-- C3: `addEntry` discards all entries strictly after the cursor, appends the
new entry, and sets the cursor to the new last index; consequently any store
produced by `addEntry` — in particular one produced after an `undo` — answers
`false` to `redo`. -/
theorem C3_addEntry_truncates (st : HistoryStore) (userInput : String)
    (result : SandboxExecutionResult) (now : Nat) (g : GameState) :
    (st.addEntry userInput result now).entries
      = st.entries.take (st.currentIndex + 1).toNat ++
        [{ id := "history-" ++ toString now, timestamp := now,
           userInput := userInput, result := result }] ∧
    (st.addEntry userInput result now).currentIndex
      = (((st.addEntry userInput result now).entries.length : Nat) : Int) - 1 ∧
    (System.redo { game := g, history := st.addEntry userInput result now }).1 = false :=
  ⟨rfl, addEntry_cursor_tail st userInput result now,
   redo_false_at_tail (addEntry_cursor_tail st userInput result now)⟩

/-- C8: on an id that does not resolve in the State Store, `updateEntity` and
`deleteEntity` return the sentinel `false` without throwing, leave the State
Store unchanged, and append no Change; as capability calls they produce no
exception, so sibling statements of the same script still run. -/
theorem C8_missing_entity_sentinel (sb : SandboxAPI) (g : GameState) (id : String)
    (u : EntityUpdates) (hmiss : GameStore.getEntity id g = none) :
    sb.updateEntity g id u = (false, sb, g) ∧
    sb.deleteEntity g id = (false, sb, g) ∧
    runCmd (Cmd.updateEntity id u) sb g = (none, sb, g) ∧
    runCmd (Cmd.deleteEntity id) sb g = (none, sb, g) := by
  refine ⟨?_, ?_, ?_, ?_⟩ <;>
    simp [runCmd, SandboxAPI.updateEntity, SandboxAPI.deleteEntity, hmiss]

/-- Witness for C8 at a concrete missing id. -/
theorem C8_missing_entity_sentinel_witness :
    GameStore.getEntity "ghost-1" initialGameState = none ∧
    ((SandboxAPI.new 0).updateEntity initialGameState "ghost-1"
        { color := some "red" } = (false, SandboxAPI.new 0, initialGameState) ∧
     (SandboxAPI.new 0).deleteEntity initialGameState "ghost-1"
        = (false, SandboxAPI.new 0, initialGameState) ∧
     runCmd (Cmd.updateEntity "ghost-1" { color := some "red" })
        (SandboxAPI.new 0) initialGameState = (none, SandboxAPI.new 0, initialGameState) ∧
     runCmd (Cmd.deleteEntity "ghost-1") (SandboxAPI.new 0) initialGameState
        = (none, SandboxAPI.new 0, initialGameState)) :=
  ⟨by decide,
   C8_missing_entity_sentinel (SandboxAPI.new 0) initialGameState "ghost-1"
     { color := some "red" } (by decide)⟩

/-- C9: while the cheat flag is unset, `modifyPoints` performs no State Store
mutation, appends no Change, and emits the denial message through `say`,
without throwing. -/
theorem C9_points_gated (sb : SandboxAPI) (g : GameState) (amount : Int)
    (h : sb.cheatModeEnabled = false) :
    sb.modifyPoints g amount =
      ({ sb with messages :=
          sb.messages ++ ["Points can only be earned through gameplay!"] }, g) ∧
    ((sb.modifyPoints g amount).1).changes = sb.changes ∧
    (sb.modifyPoints g amount).2 = g ∧
    (runCmd (Cmd.modifyPoints amount) sb g).1 = none := by
  refine ⟨?_, ?_, ?_, ?_⟩ <;>
    simp [runCmd, SandboxAPI.modifyPoints, SandboxAPI.say, h]

/-- Witness for C9 on a fresh sandbox (cheats disabled). -/
theorem C9_points_gated_witness :
    (SandboxAPI.new 7).cheatModeEnabled = false ∧
    ((SandboxAPI.new 7).modifyPoints initialGameState 50 =
      ({ SandboxAPI.new 7 with messages :=
          (SandboxAPI.new 7).messages ++
            ["Points can only be earned through gameplay!"] }, initialGameState) ∧
     (((SandboxAPI.new 7).modifyPoints initialGameState 50).1).changes
        = (SandboxAPI.new 7).changes ∧
     ((SandboxAPI.new 7).modifyPoints initialGameState 50).2 = initialGameState ∧
     (runCmd (Cmd.modifyPoints 50) (SandboxAPI.new 7) initialGameState).1 = none) :=
  ⟨rfl, C9_points_gated (SandboxAPI.new 7) initialGameState 50 rfl⟩

/-- C10: every State Store operation preserves the player bounds invariant
(health within `[0, maxHealth]`, points nonnegative); `modifyHealth` and
`modifyPoints` clamp for every input amount, including negative amounts and
amounts whose unclamped result would exceed the bounds. -/
theorem C10_player_invariant (op : StoreOp) (s : GameState)
    (h : PlayerInvariant s) : PlayerInvariant (applyStoreOp op s) := by
  obtain ⟨h0, h1, h2⟩ := h
  cases op with
  | movePlayer dx dy => exact ⟨h0, h1, h2⟩
  | teleportPlayer x y => exact ⟨h0, h1, h2⟩
  | setPlayerAppearance a => exact ⟨h0, h1, h2⟩
  | modifyHealth amount =>
    exact ⟨le_max_left 0 _, max_le (h0.trans h1) (min_le_left _ _), h2⟩
  | modifyPoints amount => exact ⟨h0, h1, le_max_left 0 _⟩
  | addEntity e => exact ⟨h0, h1, h2⟩
  | updateEntity id u => exact ⟨h0, h1, h2⟩
  | removeEntity id => exact ⟨h0, h1, h2⟩
  | setTerrainColor color => exact ⟨h0, h1, h2⟩
  | setSkyColor color => exact ⟨h0, h1, h2⟩
  | addBehavior entityId b => exact ⟨h0, h1, h2⟩
  | removeBehavior entityId t => exact ⟨h0, h1, h2⟩
  | defineShape name parts => exact ⟨h0, h1, h2⟩

/-- Witness for C10: an amount far below the lower bound still clamps. -/
theorem C10_player_invariant_witness :
    PlayerInvariant initialGameState ∧
    PlayerInvariant (applyStoreOp (StoreOp.modifyHealth (-1000)) initialGameState) :=
  ⟨by decide, C10_player_invariant (StoreOp.modifyHealth (-1000)) initialGameState
    (by decide)⟩

/-- C1 counterexample: the claim asserts the State Store is *equal* to its
pre-call state after a script that mutates and then throws.  Deleting the
first entity (`lake-1`) and then throwing re-adds the lake at the *end* of the
entity array during rollback, so the store is not equal to its pre-call
state (the entity array is reordered). -/
theorem C1_rollback_counterexample :
    (executeSandboxedCode [Cmd.deleteEntity "lake-1", Cmd.throwErr "boom"] 0
        initialGameState).2 ≠ initialGameState := by
  decide

/-- C1 (amended): for every script that throws after clean mutating calls
(fresh created ids, unique target ids, id-preserving updates, in-bounds
health/points, behavior additions of a type not already present, removals of a
unique last behavior, redefinitions of already-defined shapes),
`executeSandboxedCode` returns success = false carrying the thrown error
message, no message, an empty changes list and a no-op rollback list; the
State Store's player, world and shapes are restored exactly and its entity
list up to permutation (a deleted entity is re-added at the end); and the
failed execution contributes no entry to the History Stack. -/
theorem C1_rollback_amended (code : List Cmd) (userInput : String) (now : Nat)
    (sys : System)
    (hclean : cleanRun code (SandboxAPI.new now) sys.game = true)
    (hfail : (executeSandboxedCode code now sys.game).1.success = false) :
    (executeSandboxedCode code now sys.game).1.error
      = (runScript code (SandboxAPI.new now) sys.game).1 ∧
    ((executeSandboxedCode code now sys.game).1.error).isSome = true ∧
    (executeSandboxedCode code now sys.game).1.message = none ∧
    (executeSandboxedCode code now sys.game).1.changes = [] ∧
    (executeSandboxedCode code now sys.game).1.rollbackChanges = [] ∧
    StoreRel (executeSandboxedCode code now sys.game).2 sys.game ∧
    (commitScript ⟨code, userInput, now⟩ sys).history = sys.history := by
  rcases hr : runScript code (SandboxAPI.new now) sys.game with ⟨err, sbf, gf⟩
  cases err with
  | none =>
    exfalso
    simp [executeSandboxedCode, hr] at hfail
  | some e =>
    have hmain := runScript_main code (SandboxAPI.new now) sys.game hclean
    rw [hr] at hmain
    have hδ : sbf.changes = scriptChanges code (SandboxAPI.new now) sys.game := by
      simpa using hmain.1
    refine ⟨?_, ?_, ?_, ?_, ?_, ?_, ?_⟩
    · simp [executeSandboxedCode, hr]
    · simp [executeSandboxedCode, hr]
    · simp [executeSandboxedCode, hr]
    · simp [executeSandboxedCode, hr]
    · simp [executeSandboxedCode, hr]
    · show StoreRel (executeSandboxedCode code now sys.game).2 sys.game
      have h2 : (executeSandboxedCode code now sys.game).2
          = applyReverses sbf.changes gf := by
        simp [executeSandboxedCode, hr, SandboxAPI.rollback]
      rw [h2, hδ]
      exact hmain.2.2.1
    · rw [commitScript_fail (s := ⟨code, userInput, now⟩) hr]

/-- Witness for C1 (amended): a script that recolors the sky, creates an
entity, and then throws. -/
theorem C1_rollback_amended_witness :
    cleanRun
        [Cmd.setSkyColor "purple",
         Cmd.createEntity { name := "Ball", x := 10, y := 20, width := 8, height := 8,
                            shape := "circle", color := "#FF0000" },
         Cmd.throwErr "boom"] (SandboxAPI.new 3)
        (System.mk initialGameState HistoryStore.empty).game = true ∧
    (executeSandboxedCode
        [Cmd.setSkyColor "purple",
         Cmd.createEntity { name := "Ball", x := 10, y := 20, width := 8, height := 8,
                            shape := "circle", color := "#FF0000" },
         Cmd.throwErr "boom"] 3
        (System.mk initialGameState HistoryStore.empty).game).1.success = false ∧
    (StoreRel
        (executeSandboxedCode
          [Cmd.setSkyColor "purple",
           Cmd.createEntity { name := "Ball", x := 10, y := 20, width := 8, height := 8,
                              shape := "circle", color := "#FF0000" },
           Cmd.throwErr "boom"] 3
          (System.mk initialGameState HistoryStore.empty).game).2
        (System.mk initialGameState HistoryStore.empty).game ∧
     (commitScript
        ⟨[Cmd.setSkyColor "purple",
          Cmd.createEntity { name := "Ball", x := 10, y := 20, width := 8, height := 8,
                             shape := "circle", color := "#FF0000" },
          Cmd.throwErr "boom"], "recolor and throw", 3⟩
        (System.mk initialGameState HistoryStore.empty)).history
        = (System.mk initialGameState HistoryStore.empty).history) :=
  ⟨by decide, by decide,
   (C1_rollback_amended _ "recolor and throw" 3 _ (by decide) (by decide)).2.2.2.2.2⟩

/-- C4 counterexample: the claim asserts the State Store returns *exactly* to
its pre-sequence state.  Committing a script that deletes the first entity
(`lake-1`) and undoing re-adds the lake at the end of the entity array, so the
store differs from the original by entity order. -/
theorem C4_roundTrip_counterexample :
    (undoTimes 1 (commitMany
        [⟨[Cmd.deleteEntity "lake-1"], "remove the lake", 5⟩]
        (System.mk initialGameState HistoryStore.empty))).game
      ≠ initialGameState := by
  decide

/-- C4 (amended): for every sequence of cleanly committed script executions
(each succeeding and satisfying the clean-reversibility conditions on the
store state it actually runs from), calling `undo()` once per script returns
the State Store to its pre-sequence state up to permutation of the entity
list, with player, world and shapes exactly equal. -/
theorem C4_roundTrip_amended (scripts : List ScriptRun) (sys : System)
    (h : cleanCommits scripts sys.game = true) :
    StoreRel (undoTimes scripts.length (commitMany scripts sys)).game sys.game := by
  cases scripts with
  | nil => exact StoreRel.refl _
  | cons s rest =>
    obtain ⟨cleared, -, -, hG⟩ := commitMany_undo rest s sys h
    exact hG

/-- C5 counterexample: the claim asserts *every* invocation of undo replays
each recorded Change's reverse.  After commit → undo → redo, a second undo
reports success but replays nothing: the first rollback cleared the sandbox's
mutable change list, which the entry's rollback closure shares.  The sky stays
"red" although the entry's recorded changes, replayed in reverse as the claim
specifies, would restore "#87CEEB". -/
theorem C5_ordering_counterexample :
    ((System.undo (System.redo (System.undo
        (commitScript ⟨[Cmd.setSkyColor "red"], "make the sky red", 3⟩
          (System.mk initialGameState HistoryStore.empty))).2).2).1 = true ∧
     (System.undo (System.redo (System.undo
        (commitScript ⟨[Cmd.setSkyColor "red"], "make the sky red", 3⟩
          (System.mk initialGameState HistoryStore.empty))).2).2).2.game
       = (System.redo (System.undo
          (commitScript ⟨[Cmd.setSkyColor "red"], "make the sky red", 3⟩
            (System.mk initialGameState HistoryStore.empty))).2).2.game ∧
     (System.redo (System.undo
        (commitScript ⟨[Cmd.setSkyColor "red"], "make the sky red", 3⟩
          (System.mk initialGameState HistoryStore.empty))).2).2.game.world.skyColor
       = "red" ∧
     (applyReverses
        (executeSandboxedCode [Cmd.setSkyColor "red"] 3 initialGameState).1.changes
        (System.redo (System.undo
          (commitScript ⟨[Cmd.setSkyColor "red"], "make the sky red", 3⟩
            (System.mk initialGameState HistoryStore.empty))).2).2.game).world.skyColor
       = "#87CEEB") := by
  refine ⟨?_, ?_, ?_, ?_⟩ <;> decide

/-- C5 (amended): within one script execution, Changes are appended strictly
in capability-call order; `undo` replays the reverses of the entry's
*not-yet-cleared* sandbox change list in exact reverse recording order (a right
fold) and clears that list, so only the first undo of an entry after its
commit replays the recorded reverses, a repeated undo of the same entry after
a redo replays nothing; `redo` replays each recorded Change's forward in the
exact original recording order (a left fold). -/
theorem C5_ordering_amended (cs : List Cmd) (sb : SandboxAPI) (g : GameState)
    (sys sys2 : System) (P Q P2 Q2 : List HistoryEntry) (e e2 : HistoryEntry)
    (hent : sys.history.entries = P ++ e :: Q)
    (hcur : sys.history.currentIndex = (P.length : Int))
    (hent2 : sys2.history.entries = P2 ++ e2 :: Q2)
    (hcur2 : sys2.history.currentIndex = (P2.length : Int) - 1) :
    ((runScript cs sb g).2.1).changes = sb.changes ++ scriptChanges cs sb g ∧
    (System.undo sys).2.game
      = e.result.rollbackChanges.foldr (fun c acc => c.reverse acc) sys.game ∧
    (System.undo sys).2.history.entries
      = P ++ { e with result := { e.result with rollbackChanges := [] } } :: Q ∧
    (System.redo sys2).2.game
      = e2.result.changes.foldl (fun acc c => c.forward acc) sys2.game := by
  refine ⟨runScript_changes cs sb g, ?_, ?_, ?_⟩
  · rw [undo_at hent hcur, ← applyReverses_eq_foldr]
  · rw [undo_at hent hcur]
  · rw [redo_at hent2 hcur2]
    rfl

/-- Witness for C5 (amended) on a concrete one-entry history. -/
theorem C5_ordering_amended_witness :
    (witnessSystem.history.entries = [] ++ witnessEntry :: [] ∧
     witnessSystem.history.currentIndex = (([] : List HistoryEntry).length : Int) ∧
     witnessSystemBelow.history.entries = [] ++ witnessEntry :: [] ∧
     witnessSystemBelow.history.currentIndex
       = (([] : List HistoryEntry).length : Int) - 1) ∧
    (((runScript [Cmd.say "hi"] (SandboxAPI.new 0) initialGameState).2.1).changes
        = (SandboxAPI.new 0).changes ++
          scriptChanges [Cmd.say "hi"] (SandboxAPI.new 0) initialGameState ∧
     (System.undo witnessSystem).2.game
        = witnessEntry.result.rollbackChanges.foldr
            (fun c acc => c.reverse acc) witnessSystem.game ∧
     (System.undo witnessSystem).2.history.entries
        = [] ++ { witnessEntry with result :=
            { witnessEntry.result with rollbackChanges := [] } } :: [] ∧
     (System.redo witnessSystemBelow).2.game
        = witnessEntry.result.changes.foldl
            (fun acc c => c.forward acc) witnessSystemBelow.game) :=
  ⟨⟨rfl, rfl, rfl, by decide⟩,
   C5_ordering_amended [Cmd.say "hi"] (SandboxAPI.new 0) initialGameState
     witnessSystem witnessSystemBelow [] [] [] [] witnessEntry witnessEntry
     rfl rfl rfl (by decide)⟩

/-- C6 counterexample: the claim asserts the cheat flag is process-wide and
persists across script executions.  A first execution presents the exact
unlock code and succeeds, yet a second execution's `modifyPoints` is still
denied: each `executeSandboxedCode` call constructs a fresh `SandboxAPI`, whose
`cheatModeEnabled` field starts false. -/
theorem C6_cheat_counterexample :
    ((executeSandboxedCode [Cmd.enableCheats "quackquack"] 1
        initialGameState).1.success = true ∧
     (executeSandboxedCode [Cmd.enableCheats "quackquack"] 1
        initialGameState).1.message = some "🎮 Cheat mode enabled!" ∧
     (executeSandboxedCode [Cmd.modifyPoints 100] 2
        (executeSandboxedCode [Cmd.enableCheats "quackquack"] 1
          initialGameState).2).1.message
       = some "Points can only be earned through gameplay!" ∧
     (executeSandboxedCode [Cmd.modifyPoints 100] 2
        (executeSandboxedCode [Cmd.enableCheats "quackquack"] 1
          initialGameState).2).2.player.points = 0) := by
  refine ⟨?_, ?_, ?_, ?_⟩ <;> decide

/-- C6 (amended): the cheat flag is per script execution, not process-wide:
every execution's fresh `SandboxAPI` starts with `cheatModeEnabled = false`;
presenting the exact unlock code sets the flag; once set, it stays set for the
remainder of that same execution, and while set, `modifyPoints` mutates the
points (clamped below at 0). -/
theorem C6_cheat_per_execution_amended (now : Nat) (cs : List Cmd)
    (sb : SandboxAPI) (g : GameState) (amount : Int)
    (hcheat : sb.cheatModeEnabled = true) :
    (SandboxAPI.new now).cheatModeEnabled = false ∧
    ((SandboxAPI.enableCheats sb g "quackquack").2).cheatModeEnabled = true ∧
    (SandboxAPI.enableCheats sb g "quackquack").1 = true ∧
    ((runScript cs sb g).2.1).cheatModeEnabled = true ∧
    ((sb.modifyPoints g amount).2).player.points
      = max 0 (g.player.points + amount) := by
  refine ⟨rfl, ?_, ?_, runScript_cheat_mono cs sb g hcheat, ?_⟩
  · simp [SandboxAPI.enableCheats, SandboxAPI.say]
  · simp [SandboxAPI.enableCheats, SandboxAPI.say]
  · simp [SandboxAPI.modifyPoints, GameStore.modifyPoints, hcheat]

/-- Witness for C6 (amended) on a sandbox that has unlocked cheats. -/
theorem C6_cheat_per_execution_amended_witness :
    (((SandboxAPI.new 5).enableCheats initialGameState "quackquack").2.cheatModeEnabled
        = true ∧
     ((((SandboxAPI.new 5).enableCheats initialGameState "quackquack").2).modifyPoints
        initialGameState 40).2.player.points
       = max 0 (initialGameState.player.points + 40)) :=
  ⟨by decide,
   (C6_cheat_per_execution_amended 9 []
      ((SandboxAPI.new 5).enableCheats initialGameState "quackquack").2
      initialGameState 40 (by decide)).2.2.2.2⟩

/-- C7 counterexample: the claim asserts undo-then-redo reproduces the exact
post-commit state.  Commit adding a "bounce" behavior to an entity that
already has one (from a previous commit): undo removes *both* behaviors of
that type, redo re-adds only one, so the store after redo differs from the
post-commit state. -/
theorem C7_redo_counterexample :
    (System.redo (System.undo
        (commitScript ⟨[Cmd.addBehavior "tree-1" { type := "bounce" }], "again", 2⟩
          (commitScript ⟨[Cmd.addBehavior "tree-1" { type := "bounce" }], "bounce", 1⟩
            (System.mk initialGameState HistoryStore.empty)))).2).2.game
      ≠ (commitScript ⟨[Cmd.addBehavior "tree-1" { type := "bounce" }], "again", 2⟩
          (commitScript ⟨[Cmd.addBehavior "tree-1" { type := "bounce" }], "bounce", 1⟩
            (System.mk initialGameState HistoryStore.empty))).game := by
  decide

/-- C7 (amended): for a cleanly committed entry, `undo()` immediately followed
by `redo()` with no intervening commit succeeds and reproduces the post-commit
State Store exactly — even when the undo itself had left the entity array
reordered, the replayed forwards re-delete exactly the reordered entities. -/
theorem C7_redo_amended (s : ScriptRun) (sys : System)
    (hclean : cleanRun s.code (SandboxAPI.new s.now) sys.game = true)
    (hok : (runScript s.code (SandboxAPI.new s.now) sys.game).1 = none) :
    (System.undo (commitScript s sys)).1 = true ∧
    (System.redo (System.undo (commitScript s sys)).2).1 = true ∧
    (System.redo (System.undo (commitScript s sys)).2).2.game =
      (commitScript s sys).game := by
  rcases hr : runScript s.code (SandboxAPI.new s.now) sys.game with ⟨err, sbf, gf⟩
  rw [hr] at hok
  cases err with
  | some e => cases hok
  | none =>
    have hmain := runScript_main s.code (SandboxAPI.new s.now) sys.game hclean
    rw [hr] at hmain
    have hδ : sbf.changes = scriptChanges s.code (SandboxAPI.new s.now) sys.game := by
      simpa using hmain.1
    have hcommit := commitScript_success hr
    have hu := @undo_at
      { game := gf,
        history := sys.history.addEntry s.userInput
          { success := true, message := sbf.messages.getLast?, error := none,
            changes := sbf.changes, rollbackChanges := sbf.changes } s.now }
      (sys.history.entries.take (sys.history.currentIndex + 1).toNat)
      []
      { id := "history-" ++ toString s.now, timestamp := s.now,
        userInput := s.userInput,
        result := { success := true, message := sbf.messages.getLast?,
                    error := none, changes := sbf.changes,
                    rollbackChanges := sbf.changes } }
      (by simp [HistoryStore.addEntry]) (by simp [HistoryStore.addEntry])
    have hre := @redo_at
      { game := applyReverses sbf.changes gf,
        history :=
          { entries := sys.history.entries.take (sys.history.currentIndex + 1).toNat ++
              [{ id := "history-" ++ toString s.now, timestamp := s.now,
                 userInput := s.userInput,
                 result := { success := true, message := sbf.messages.getLast?,
                             error := none, changes := sbf.changes,
                             rollbackChanges := [] } }],
            currentIndex :=
              ((sys.history.entries.take (sys.history.currentIndex + 1).toNat).length : Int)
                - 1 } }
      (sys.history.entries.take (sys.history.currentIndex + 1).toNat)
      []
      { id := "history-" ++ toString s.now, timestamp := s.now,
        userInput := s.userInput,
        result := { success := true, message := sbf.messages.getLast?,
                    error := none, changes := sbf.changes,
                    rollbackChanges := [] } }
      rfl rfl
    refine ⟨?_, ?_, ?_⟩
    · rw [hcommit, hu]
    · rw [hcommit, hu, hre]
    · rw [hcommit, hu, hre]
      show applyForwards sbf.changes (applyReverses sbf.changes gf) = gf
      rw [hδ]
      have hok0 : (runScript s.code (SandboxAPI.new s.now) sys.game).1 = none := by
        rw [hr]
      have hx := redo_exact s.code (SandboxAPI.new s.now) sys.game hclean hok0
      rw [hr] at hx
      exact hx

/-- Witness for C7 (amended): a committed script deleting a non-last entity —
the undo re-adds it at the end of the array, and the redo still reproduces the
post-commit store exactly. -/
theorem C7_redo_amended_witness :
    cleanRun [Cmd.deleteEntity "tree-1"] (SandboxAPI.new 4)
        (System.mk initialGameState HistoryStore.empty).game = true ∧
    (runScript [Cmd.deleteEntity "tree-1"] (SandboxAPI.new 4)
        (System.mk initialGameState HistoryStore.empty).game).1 = none ∧
    ((System.undo (commitScript ⟨[Cmd.deleteEntity "tree-1"], "chop", 4⟩
        (System.mk initialGameState HistoryStore.empty))).1 = true ∧
     (System.redo (System.undo (commitScript ⟨[Cmd.deleteEntity "tree-1"], "chop", 4⟩
        (System.mk initialGameState HistoryStore.empty))).2).1 = true ∧
     (System.redo (System.undo (commitScript ⟨[Cmd.deleteEntity "tree-1"], "chop", 4⟩
        (System.mk initialGameState HistoryStore.empty))).2).2.game =
       (commitScript ⟨[Cmd.deleteEntity "tree-1"], "chop", 4⟩
          (System.mk initialGameState HistoryStore.empty)).game) :=
  ⟨by decide, by decide,
   C7_redo_amended ⟨[Cmd.deleteEntity "tree-1"], "chop", 4⟩
     (System.mk initialGameState HistoryStore.empty) (by decide) (by decide)⟩

/-- Witness for C4 (amended): two committed scripts, two undos. -/
theorem C4_roundTrip_amended_witness :
    cleanCommits
        [⟨[Cmd.setSkyColor "red", Cmd.teleportPlayer 50 60], "sunset", 1⟩,
         ⟨[Cmd.createEntity { name := "Ball", x := 10, y := 20, width := 8, height := 8,
                              shape := "circle", color := "#FF0000" },
           Cmd.modifyHealth (-30)], "ball and ouch", 2⟩]
        (System.mk initialGameState HistoryStore.empty).game = true ∧
    StoreRel
      (undoTimes
        ([⟨[Cmd.setSkyColor "red", Cmd.teleportPlayer 50 60], "sunset", 1⟩,
          ⟨[Cmd.createEntity { name := "Ball", x := 10, y := 20, width := 8, height := 8,
                               shape := "circle", color := "#FF0000" },
            Cmd.modifyHealth (-30)], "ball and ouch", 2⟩] : List ScriptRun).length
        (commitMany
          [⟨[Cmd.setSkyColor "red", Cmd.teleportPlayer 50 60], "sunset", 1⟩,
           ⟨[Cmd.createEntity { name := "Ball", x := 10, y := 20, width := 8, height := 8,
                                shape := "circle", color := "#FF0000" },
             Cmd.modifyHealth (-30)], "ball and ouch", 2⟩]
          (System.mk initialGameState HistoryStore.empty))).game
      (System.mk initialGameState HistoryStore.empty).game :=
  ⟨by decide, C4_roundTrip_amended _ _ (by decide)⟩

end DuckGame
